import Mathlib

/-! # SOL-Meme-Creator: `src/main.js`

A shallow embedding of the two subsystems of `src/main.js`:

* the slot-change handler `handleDevnetChange` (the balance sweep), and
* the mint pipeline `createMintTokenTransaction` / `uploadMetadata` / `main`.

JavaScript `async` functions are embedded as trees of requests (`Async`): every call that
leaves the function body (a network call, a timer, a write to one of the two module-level
`BehaviorSubject`s, `console.error`, a library call that can throw) is a `perform` node whose
continuation receives the outcome of the call.  `Async.run` interprets a tree sequentially
against an arbitrary environment (`Oracle`); `Sim` interleaves several trees at their
suspension points on a clock.

JavaScript Numbers are embedded as IEEE-754 binary64 values (`JsNumber`) with
round-to-nearest-even arithmetic computed on exact numerators and denominators.

Console output through `console.log`, `chalk` and `ora` is presentational and is left out.
-/

namespace SolMemeCreator

/-! ## JavaScript Numbers -/

/-- A JavaScript Number: NaN, an infinity, or the finite value `m * 2 ^ e`.
The sign of zero is not represented. -/
inductive JsNumber where
  | nan
  | inf (neg : Bool)
  | fin (m : Int) (e : Int)
  deriving DecidableEq, Repr

/-- Floor of the base-2 logarithm of `n` (`0` for `n < 2`), by halving at most `fuel` times. -/
def log2Fuel : Nat → Nat → Nat
  | 0, _ => 0
  | fuel + 1, n => if n < 2 then 0 else log2Fuel fuel (n / 2) + 1

/-- Floor of the base-2 logarithm of `n` (`0` for `n = 0`). -/
def log2 (n : Nat) : Nat := log2Fuel n n

/-- Floor of the base-2 logarithm of `n / d`, for positive `n` and `d`. -/
def floorLog2Ratio (n d : Nat) : Int :=
  let c : Int := (log2 n : Int) - (log2 d : Int)
  if 0 ≤ c then
    if d * 2 ^ c.toNat ≤ n then c else c - 1
  else
    if d ≤ n * 2 ^ (-c).toNat then c else c - 1

/-- The binary64 value nearest to `n / d` (ties to even), with sign `neg`:
53 significant bits, least exponent `-1074`, overflow to infinity at `2 ^ 1024`
(that is `2 ^ 53 * 2 ^ 971`). -/
def roundRatio (neg : Bool) (n d : Nat) : JsNumber :=
  if n = 0 then .fin 0 0 else
  let e : Int := max (floorLog2Ratio n d - 52) (-1074)
  let num := if e < 0 then n * 2 ^ (-e).toNat else n
  let den := if e < 0 then d else d * 2 ^ e.toNat
  let q := num / den
  let r := num % den
  let m := if den < 2 * r ∨ (2 * r = den ∧ q % 2 = 1) then q + 1 else q
  if 971 ≤ e ∧ 2 ^ 53 ≤ m * 2 ^ (e - 971).toNat then .inf neg
  else .fin (if neg then -(m : Int) else (m : Int)) e

/-- The binary64 value nearest to the exact dyadic number `M * 2 ^ E`. -/
def roundDyadic (M : Int) (E : Int) : JsNumber :=
  if 0 ≤ E then roundRatio (decide (M < 0)) (M.natAbs * 2 ^ E.toNat) 1
  else roundRatio (decide (M < 0)) M.natAbs (2 ^ (-E).toNat)

namespace JsNumber

/-- The Number value of a natural number. -/
def ofNat (n : Nat) : JsNumber := roundDyadic (n : Int) 0

/-- The global `isNaN` on a Number. -/
def isNaN : JsNumber → Bool
  | .nan => true
  | _ => false

/-- The exact rational value of a finite Number. -/
def toRat? : JsNumber → Option ℚ
  | .fin m e => some ((m : ℚ) * (2 : ℚ) ^ e)
  | _ => none

/-- The exact integer value of a finite, integer-valued Number. -/
def toInt? : JsNumber → Option Int
  | .fin m e =>
    if 0 ≤ e then some (m * 2 ^ e.toNat)
    else if m % (2 ^ (-e).toNat) = 0 then some (m / 2 ^ (-e).toNat) else none
  | _ => none

/-- Whether the Number is below zero. -/
def isNegative : JsNumber → Bool
  | .nan => false
  | .inf neg => neg
  | .fin m _ => decide (m < 0)

/-- Whether the Number is a whole number `n` with `0 ≤ n < bound`. -/
def isWholeBelow (bound : Nat) (x : JsNumber) : Bool :=
  match x.toInt? with
  | some i => decide (0 ≤ i) && decide (i < bound)
  | none => false

/-- JavaScript `a * b` (Number::multiply). -/
def mul : JsNumber → JsNumber → JsNumber
  | .nan, _ => .nan
  | _, .nan => .nan
  | .inf s, .inf t => .inf (s != t)
  | .inf s, .fin m _ => if m = 0 then .nan else .inf (s != decide (m < 0))
  | .fin m _, .inf t => if m = 0 then .nan else .inf (decide (m < 0) != t)
  | .fin m₁ e₁, .fin m₂ e₂ => roundDyadic (m₁ * m₂) (e₁ + e₂)

/-- JavaScript `a - b` (Number::subtract). -/
def sub : JsNumber → JsNumber → JsNumber
  | .nan, _ => .nan
  | _, .nan => .nan
  | .inf s, .inf t => if s = t then .nan else .inf s
  | .inf s, .fin _ _ => .inf s
  | .fin _ _, .inf t => .inf (!t)
  | .fin m₁ e₁, .fin m₂ e₂ =>
    let e := min e₁ e₂
    roundDyadic (m₁ * 2 ^ (e₁ - e).toNat - m₂ * 2 ^ (e₂ - e).toNat) e

end JsNumber

/-! ## Ledger data -/

/-- A `PublicKey` of `@solana/web3.js`, identified by its base-58 text. -/
structure PublicKey where
  base58 : String
  deriving DecidableEq, Repr

/-- The method `PublicKey.toString`. -/
def PublicKey.toString (k : PublicKey) : String := k.base58

/-- A `Keypair` of `@solana/web3.js`. -/
structure Keypair where
  publicKey : PublicKey
  secretKey : String
  deriving DecidableEq, Repr

/-- A `Connection` of `@solana/web3.js`: endpoint and commitment. -/
structure Connection where
  endpoint : String
  commitment : Option String
  deriving DecidableEq, Repr

/-- The object `token` built by `main`. -/
structure Token where
  decimals : JsNumber
  totalSupply : JsNumber
  mint : JsNumber
  renounced : JsNumber
  liquidity : JsNumber
  burn : JsNumber
  rugpull : JsNumber
  deriving DecidableEq, Repr

/-- The object `tokenMetadata` built by `main`; `uri`, `creators`, `collection` and `uses` are
absent before the upload (`tokenMetadataV2` sets `uri` and sets the other three to `null`). -/
structure TokenMetadata where
  name : String
  symbol : String
  image : String
  sellerFeeBasisPoints : JsNumber
  decimals : JsNumber
  totalSupply : JsNumber
  uri : Option String
  creators : Option Unit
  collection : Option Unit
  uses : Option Unit
  deriving DecidableEq, Repr

/-- The accounts argument of `createCreateMetadataAccountV3Instruction`. -/
structure MetadataAccounts where
  metadata : PublicKey
  mint : PublicKey
  mintAuthority : PublicKey
  payer : PublicKey
  updateAuthority : PublicKey
  deriving DecidableEq, Repr

/-- The value of `createMetadataAccountArgsV3`. -/
structure CreateMetadataAccountArgsV3 where
  data : TokenMetadata
  isMutable : Bool
  collectionDetails : Option Unit
  deriving DecidableEq, Repr

/-- Ledger instructions, as the arguments handed to the client-library constructor of each.
The constructors encode their arguments and throw on the ones they cannot encode; that code
is not part of `src/main.js`, and each call of a constructor is the request
`Request.buildInstruction`, which returns or throws. -/
inductive Instruction where
  /-- `SystemProgram.transfer({fromPubkey, toPubkey, lamports})`; `toPubkey` is the text
  `resultKey.toString()` that `handleDevnet` passes. -/
  | transfer (fromPubkey : PublicKey) (toPubkey : String) (lamports : JsNumber)
  /-- `SystemProgram.createAccount({fromPubkey, newAccountPubkey, space, lamports, programId})`. -/
  | createAccount (fromPubkey newAccountPubkey : PublicKey) (space : Nat) (lamports : JsNumber)
      (programId : PublicKey)
  /-- `createInitializeMintInstruction(mint, decimals, mintAuthority, freezeAuthority,
  programId)`. -/
  | initializeMint (mint : PublicKey) (decimals : JsNumber) (mintAuthority : PublicKey)
      (freezeAuthority : Option PublicKey) (programId : PublicKey)
  /-- `createAssociatedTokenAccountInstruction(payer, associatedToken, owner, mint)`. -/
  | createAssociatedTokenAccount (payer associatedToken owner mint : PublicKey)
  /-- `createMintToInstruction(mint, destination, authority, amount)`. -/
  | mintTo (mint destination authority : PublicKey) (amount : JsNumber)
  /-- `createCreateMetadataAccountV3Instruction(accounts, args)`. -/
  | createMetadataAccountV3 (accounts : MetadataAccounts) (args : CreateMetadataAccountArgsV3)
  deriving DecidableEq, Repr

/-- The five kinds of instruction of the mint transaction, and the transfer. -/
inductive InstructionKind where
  | transfer
  | accountAllocation
  | mintInitialization
  | associatedAccountCreation
  | supplyMintTo
  | metadataAccountCreation
  deriving DecidableEq, Repr

/-- The kind of an instruction. -/
def Instruction.kind : Instruction → InstructionKind
  | .transfer .. => .transfer
  | .createAccount .. => .accountAllocation
  | .initializeMint .. => .mintInitialization
  | .createAssociatedTokenAccount .. => .associatedAccountCreation
  | .mintTo .. => .supplyMintTo
  | .createMetadataAccountV3 .. => .metadataAccountCreation

/-- A legacy `Transaction` of `@solana/web3.js`. -/
structure Transaction where
  recentBlockhash : String
  feePayer : PublicKey
  instructions : List Instruction
  deriving DecidableEq, Repr

/-- The constructor `new Transaction({recentBlockhash, feePayer})`: no instruction yet. -/
def Transaction.new (recentBlockhash : String) (feePayer : PublicKey) : Transaction :=
  { recentBlockhash := recentBlockhash, feePayer := feePayer, instructions := [] }

/-- The method `Transaction.add(instruction)`: appends one instruction. -/
def Transaction.add (tx : Transaction) (ix : Instruction) : Transaction :=
  { tx with instructions := tx.instructions ++ [ix] }

/-- The result of `new TransactionMessage({payerKey, recentBlockhash, instructions})
.compileToV0Message()`. -/
structure MessageV0 where
  payerKey : PublicKey
  recentBlockhash : String
  instructions : List Instruction
  deriving DecidableEq, Repr

/-- A `VersionedTransaction`: its message and the keypairs it was signed with. -/
structure VersionedTransaction where
  message : MessageV0
  signers : List Keypair
  deriving DecidableEq, Repr

/-- The constructor `new VersionedTransaction(message)`: unsigned. -/
def VersionedTransaction.new (message : MessageV0) : VersionedTransaction :=
  { message := message, signers := [] }

/-- The method `VersionedTransaction.sign(signers)`. -/
def VersionedTransaction.sign (tx : VersionedTransaction) (signers : List Keypair) :
    VersionedTransaction :=
  { tx with signers := tx.signers ++ signers }

/-- The value of `connection.getRecentBlockhash()`, with the one field of `feeCalculator`
that is read. -/
structure RecentBlockhash where
  blockhash : String
  lamportsPerSignature : JsNumber
  deriving DecidableEq, Repr

/-- The value of `connection.getLatestBlockhash()`. -/
structure LatestBlockhash where
  blockhash : String
  lastValidBlockHeight : JsNumber
  deriving DecidableEq, Repr

/-- The storage driver options given to `bundlrStorage`. -/
structure BundlrOptions where
  address : String
  providerUrl : String
  timeout : Nat
  deriving DecidableEq, Repr

/-- The value of `Metaplex.make(connection).use(keypairIdentity(..)).use(bundlrStorage(..))`. -/
structure Metaplex where
  connection : Connection
  identity : Keypair
  storage : BundlrOptions
  deriving DecidableEq, Repr

/-- The argument object of `handleDevnetChange`. -/
structure WatcherArgs where
  connection : Connection
  walletKeyPair : Keypair
  resultKey : String
  deriving DecidableEq, Repr

/-- The answers object returned by `inquirer.prompt(questions)`, one text per question. -/
structure Answers where
  network : String
  tokenName : String
  symbol : String
  decimals : String
  supply : String
  image : String
  description : String
  royalty : String
  quote : String
  minBuy : String
  minTick : String
  mint : String
  renounced : String
  liquidity : String
  burn : String
  rugpull : String
  deriving DecidableEq, Repr

/-! ## Asynchronous functions -/

/-- A value thrown by JavaScript code: an `Error` with its message, a string, or anything
else. -/
inductive Thrown where
  | error (message : String)
  | str (s : String)
  | other (tag : Nat)
  deriving DecidableEq, Repr

/-- The outcome of a call: a value, or a thrown value (a rejected promise). -/
inductive Outcome (α : Type) where
  | ok (value : α)
  | err (thrown : Thrown)
  deriving DecidableEq, Repr

/-- Every call of `src/main.js` that leaves the function body. -/
inductive Request where
  /-- `setTimeout(resolve, ms)` inside `sleep`. -/
  | setTimeout (ms : Nat)
  /-- `isRunning.next(b)`. -/
  | isRunningNext (b : Bool)
  /-- `lastBlockHash.next(h)`. -/
  | lastBlockHashNext (h : String)
  /-- `connection.getBalance(publicKey)`. -/
  | getBalance (connection : Connection) (publicKey : PublicKey)
  /-- `connection.getRecentBlockhash()`. -/
  | getRecentBlockhash (connection : Connection)
  /-- `connection.sendTransaction(tx, signers)` for a legacy transaction. -/
  | sendTransaction (connection : Connection) (tx : Transaction) (signers : List Keypair)
  /-- `getMinimumBalanceForRentExemptMint(connection)`. -/
  | getMinimumBalanceForRentExemptMint (connection : Connection)
  /-- `metaplex.nfts().pdas().metadata({mint})`. -/
  | metadataPda (metaplex : Metaplex) (mint : PublicKey)
  /-- `getAssociatedTokenAddress(mint, owner)`. -/
  | getAssociatedTokenAddress (mint owner : PublicKey)
  /-- `connection.getLatestBlockhash(commitment)`. -/
  | getLatestBlockhash (connection : Connection) (commitment : Option String)
  /-- `console.error(message, error)`. -/
  | consoleError (message : String) (error : Thrown)
  /-- `metaplex.nfts().uploadMetadata(tokenMetadata)`. -/
  | nftsUploadMetadata (metaplex : Metaplex) (tokenMetadata : TokenMetadata)
  /-- `Keypair.fromSecretKey(bs58.decode(text))`. -/
  | keypairFromSecretKey (text : String)
  /-- `new PublicKey(text)`. -/
  | newPublicKey (text : String)
  /-- `connection.onSlotChange(callback)`, the callback being
  `handleDevnetChange(args, SlotInfo)`. -/
  | onSlotChange (connection : Connection) (args : WatcherArgs)
  /-- `inquirer.prompt(questions)`. -/
  | inquirerPrompt
  /-- `Keypair.generate()`. -/
  | keypairGenerate
  /-- `connection.sendTransaction(transaction)` for a versioned transaction. -/
  | sendVersionedTransaction (connection : Connection) (tx : VersionedTransaction)
  /-- `connection.confirmTransaction({signature, lastValidBlockHeight, blockhash})`. -/
  | confirmTransaction (connection : Connection) (signature : String)
      (lastValidBlockHeight : JsNumber) (blockhash : String)
  /-- The call of the client-library constructor of the instruction `ix`
  (`SystemProgram.transfer`, `SystemProgram.createAccount`,
  `createInitializeMintInstruction`, `createAssociatedTokenAccountInstruction`,
  `createMintToInstruction`, `createCreateMetadataAccountV3Instruction`) with the arguments
  recorded in `ix`. -/
  | buildInstruction (ix : Instruction)
  deriving DecidableEq, Repr

/-- The type of the value a request yields when it does not throw. -/
def Request.Response : Request → Type
  | .setTimeout _ => Unit
  | .isRunningNext _ => Unit
  | .lastBlockHashNext _ => Unit
  | .getBalance _ _ => JsNumber
  | .getRecentBlockhash _ => RecentBlockhash
  | .sendTransaction _ _ _ => String
  | .getMinimumBalanceForRentExemptMint _ => JsNumber
  | .metadataPda _ _ => PublicKey
  | .getAssociatedTokenAddress _ _ => PublicKey
  | .getLatestBlockhash _ _ => LatestBlockhash
  | .consoleError _ _ => Unit
  | .nftsUploadMetadata _ _ => String
  | .keypairFromSecretKey _ => Keypair
  | .newPublicKey _ => PublicKey
  | .onSlotChange _ _ => Nat
  | .inquirerPrompt => Answers
  | .keypairGenerate => Keypair
  | .sendVersionedTransaction _ _ => String
  | .confirmTransaction _ _ _ _ => Unit
  | .buildInstruction _ => Unit

/-- Whether the request is awaited: the function suspends until its promise settles.  The
others are synchronous calls. -/
def Request.suspends : Request → Bool
  | .setTimeout _ => true
  | .getBalance _ _ => true
  | .getRecentBlockhash _ => true
  | .sendTransaction _ _ _ => true
  | .getMinimumBalanceForRentExemptMint _ => true
  | .getAssociatedTokenAddress _ _ => true
  | .getLatestBlockhash _ _ => true
  | .nftsUploadMetadata _ _ => true
  | .inquirerPrompt => true
  | .sendVersionedTransaction _ _ => true
  | .confirmTransaction _ _ _ _ => true
  | _ => false

/-- The body of a JavaScript `async` function as a tree: it returns, throws, performs a
request and continues with its outcome, or ends the process (`process.exit`). -/
inductive Async (α : Type) : Type where
  | pure (a : α)
  | throw (e : Thrown)
  | perform (r : Request) (k : Outcome r.Response → Async α)
  | exit (code : Nat)

namespace Async

/-- Sequencing: `p` and then `f` on the value `p` returns. -/
def bind {α β : Type} : Async α → (α → Async β) → Async β
  | .pure a, f => f a
  | .throw e, _ => .throw e
  | .perform r k, f => .perform r (fun o => (k o).bind f)
  | .exit c, _ => .exit c

instance : Monad Async where
  pure := Async.pure
  bind := Async.bind

/-- The statement `try { body } catch (err) { handler err }`. -/
def tryCatch {α : Type} : Async α → (Thrown → Async α) → Async α
  | .pure a, _ => .pure a
  | .throw e, h => h e
  | .perform r k, h => .perform r (fun o => (k o).tryCatch h)
  | .exit c, _ => .exit c

/-- The statement `try { body } finally { cleanup }`: `cleanup` runs when `body` returns or
throws, and the completion of `body` stands unless `cleanup` itself throws. -/
def tryFinally {α : Type} : Async α → Async Unit → Async α
  | .pure a, fin => fin.bind (fun _ => .pure a)
  | .throw e, fin => fin.bind (fun _ => .throw e)
  | .perform r k, fin => .perform r (fun o => (k o).tryFinally fin)
  | .exit c, _ => .exit c

/-- The call of a request whose value is used and whose throw propagates (for an awaited
request, `await`). -/
def call (r : Request) : Async r.Response :=
  .perform r (fun o =>
    match o with
    | .ok v => .pure v
    | .err e => .throw e)

/-- The call of a request that cannot throw and whose value is not used. -/
def act (r : Request) : Async Unit :=
  .perform r (fun _ => .pure ())

end Async

/-- The call of the client-library constructor of `ix`: it returns the instruction, or
throws. -/
def Instruction.build (ix : Instruction) : Async Instruction :=
  .perform (.buildInstruction ix) (fun o =>
    match o with
    | .ok _ => .pure ix
    | .err e => .throw e)

/-- The two module-level `BehaviorSubject`s. -/
structure Globals where
  lastBlockHash : String
  isRunning : Bool
  deriving DecidableEq, Repr

/-- The module-level initialisation: `new BehaviorSubject('')`,
`new BehaviorSubject(false)`. -/
def Globals.initial : Globals := { lastBlockHash := "", isRunning := false }

/-- The effect of a request on the `BehaviorSubject`s. -/
def Globals.apply (g : Globals) : Request → Globals
  | .isRunningNext b => { g with isRunning := b }
  | .lastBlockHashNext h => { g with lastBlockHash := h }
  | _ => g

/-- The environment: the outcome of each request, given the requests made before it. -/
abbrev Oracle := List Request → (r : Request) → Outcome r.Response

/-- How an invocation ends. -/
inductive Completion (α : Type) where
  | returned (a : α)
  | threw (e : Thrown)
  | exited (code : Nat)
  deriving DecidableEq, Repr

/-- The result of running an invocation to its end. -/
structure Run (α : Type) where
  completion : Completion α
  globals : Globals
  trace : List Request

/-- Runs an invocation to its end against the environment `ρ`, from the globals `g` and the
requests `trace` already made; every request is appended to the trace. -/
def Async.run {α : Type} (ρ : Oracle) : Async α → Globals → List Request → Run α
  | .pure a, g, trace => ⟨.returned a, g, trace⟩
  | .throw e, g, trace => ⟨.threw e, g, trace⟩
  | .exit c, g, trace => ⟨.exited c, g, trace⟩
  | .perform r k, g, trace => (k (ρ trace r)).run ρ (g.apply r) (trace ++ [r])

/-! ## The sweep watcher -/

/-- The helper `sleep = (ms = 0) => new Promise((resolve) => setTimeout(resolve, ms))`. -/
def sleep (ms : Nat) : Async Unit := Async.act (.setTimeout ms)

/-- The function `handleDevnetChange` (lines 61-91). -/
def handleDevnetChange (args : WatcherArgs) : Async Unit := do
  sleep 5000
  Async.tryFinally
    (Async.tryCatch
      (do
        Async.act (.isRunningNext true)
        let connection := args.connection
        let walletKeyPair := args.walletKeyPair
        let resultKey := args.resultKey
        let balance ← Async.call (.getBalance connection walletKeyPair.publicKey)
        let recentBlockhash ← Async.call (.getRecentBlockhash connection)
        Async.act (.lastBlockHashNext recentBlockhash.blockhash)
        let cost := recentBlockhash.lamportsPerSignature
        let amountToSend := JsNumber.sub balance cost
        let transfer ← Instruction.build
          (.transfer walletKeyPair.publicKey resultKey amountToSend)
        let tx := (Transaction.new recentBlockhash.blockhash walletKeyPair.publicKey).add
          transfer
        let _ ← Async.call (.sendTransaction connection tx [walletKeyPair])
        pure ())
      (fun err =>
        match err with
        | .str _ => pure ()
        | .error _ => pure ()
        | _ => pure ()))
    (Async.act (.isRunningNext false))

/-! ## The scheduler

JavaScript runs one invocation at a time and switches between invocations only where one
awaits.  `Sim` keeps the suspended invocations with the time at which the promise each one
awaits settles, the callbacks subscribed to the slot-change events, and the times of the
slot-change events still to come. -/

/-- A suspended invocation: the request it awaits, the time the promise settles, and the
continuation. -/
structure Suspended where
  due : Nat
  request : Request
  resume : Outcome request.Response → Async Unit

/-- The network seen by the scheduler: how long each awaited request takes, and its
outcome. -/
structure Network where
  latency : Request → Nat
  outcome : Oracle

/-- The state of the event loop: the two `BehaviorSubject`s, the requests made so far with
the time of each, the suspended invocations, the arguments of the callbacks subscribed by
`connection.onSlotChange`, and the times of the slot-change events to come. -/
structure Sim where
  globals : Globals
  log : List (Nat × Request)
  waiting : List Suspended
  subscribers : List WatcherArgs
  slots : List Nat

/-- The subscribers after a request: `connection.onSlotChange` adds one. -/
def subscribe (subscribers : List WatcherArgs) : Request → List WatcherArgs
  | .onSlotChange _ args => subscribers ++ [args]
  | _ => subscribers

/-- Runs an invocation at time `now` up to its next `await`; `process.exit` ends
everything. -/
def Sim.drive (net : Network) (now : Nat) : Async Unit → Sim → Sim
  | .pure _, s => s
  | .throw _, s => s
  | .exit _, s => { s with waiting := [], subscribers := [], slots := [] }
  | .perform r k, s =>
    if r.suspends then
      { globals := s.globals.apply r, log := s.log ++ [(now, r)],
        waiting := s.waiting ++ [⟨now + net.latency r, r, k⟩],
        subscribers := subscribe s.subscribers r, slots := s.slots }
    else
      Sim.drive net now (k (net.outcome (s.log.map Prod.snd) r))
        { s with globals := s.globals.apply r, log := s.log ++ [(now, r)],
                 subscribers := subscribe s.subscribers r }

/-- Takes out the suspended invocation that is due first (the one suspended first, among
equals). -/
def extractMin : List Suspended → Option (Suspended × List Suspended)
  | [] => none
  | w :: ws =>
    match extractMin ws with
    | none => some (w, [])
    | some (v, rest) => if v.due < w.due then some (v, w :: rest) else some (w, ws)

/-- Resumes the suspended invocation `w` at the time its promise settles. -/
def Sim.wake (net : Network) (w : Suspended) (rest : List Suspended) (s : Sim) : Sim :=
  Sim.drive net w.due (w.resume (net.outcome (s.log.map Prod.snd) w.request))
    { s with waiting := rest }

/-- Delivers a slot-change event at time `t`: every subscribed callback
`async (SlotInfo) => await handleDevnetChange(args, SlotInfo)` is invoked. -/
def Sim.deliver (net : Network) (t : Nat) (s : Sim) : Sim :=
  s.subscribers.foldl (fun acc args => Sim.drive net t (handleDevnetChange args) acc) s

/-- One turn of the event loop: the next settled promise or the next slot-change event,
whichever is first. -/
def Sim.step (net : Network) (s : Sim) : Option Sim :=
  match extractMin s.waiting, s.slots with
  | none, [] => none
  | none, t :: ts => some (Sim.deliver net t { s with slots := ts })
  | some (w, rest), [] => some (Sim.wake net w rest s)
  | some (w, rest), t :: ts =>
    if w.due ≤ t then some (Sim.wake net w rest s)
    else some (Sim.deliver net t { s with slots := ts })

/-- Runs the event loop for at most `fuel` turns. -/
def Sim.runFor (net : Network) : Nat → Sim → Sim
  | 0, s => s
  | fuel + 1, s =>
    match Sim.step net s with
    | none => s
    | some s' => Sim.runFor net fuel s'

/-- The event loop after `program` has run at time 0 up to its first `await`, with
slot-change events to come at the times `slots`. -/
def Sim.boot (net : Network) (program : Async Unit) (slots : List Nat) : Sim :=
  Sim.drive net 0 program
    { globals := Globals.initial, log := [], waiting := [], subscribers := [], slots := slots }

/-- Whether a request submits a transfer transaction. -/
def Request.isSendTransaction : Request → Bool
  | .sendTransaction _ _ _ => true
  | _ => false

/-! ## The mint pipeline -/

/-- The constant `MINT_SIZE` of `@solana/spl-token`. -/
def MINT_SIZE : Nat := 82

/-- The constant `TOKEN_PROGRAM_ID` of `@solana/spl-token`. -/
def TOKEN_PROGRAM_ID : PublicKey := ⟨"TokenkegQfeZyiNwAJbNbGKPFXCWuBvf9Ss623VQ5DA"⟩

/-- The function `createMintTokenTransaction` (lines 122-195).  An argument that is `null` or
absent is `none`.  `mathPow` is the engine's `Math.pow`.  The five arguments of
`txInstructions.push` are evaluated in order, each a call of a constructor that returns or
throws. -/
def createMintTokenTransaction (mathPow : JsNumber → JsNumber → JsNumber)
    (connection : Option Connection) (metaplex : Option Metaplex) (payer : Option Keypair)
    (mintKeypair : Option Keypair) (token : Option Token) (tokenMetadata : Option TokenMetadata)
    (destinationWallet : Option PublicKey) (mintAuthority : Option PublicKey) :
    Async VersionedTransaction :=
  Async.tryCatch
    (match connection, metaplex, payer, mintKeypair, token, tokenMetadata, destinationWallet,
        mintAuthority with
      | some connection, some metaplex, some payer, some mintKeypair, some token,
          some tokenMetadata, some destinationWallet, some mintAuthority => do
        let requiredBalance ← Async.call (.getMinimumBalanceForRentExemptMint connection)
        let metadataPDA ← Async.call (.metadataPda metaplex mintKeypair.publicKey)
        let tokenATA ←
          Async.call (.getAssociatedTokenAddress mintKeypair.publicKey destinationWallet)
        let createAccount ← Instruction.build
          (.createAccount payer.publicKey mintKeypair.publicKey MINT_SIZE requiredBalance
            TOKEN_PROGRAM_ID)
        let initializeMint ← Instruction.build
          (.initializeMint mintKeypair.publicKey token.decimals mintAuthority none
            TOKEN_PROGRAM_ID)
        let createAssociatedTokenAccount ← Instruction.build
          (.createAssociatedTokenAccount payer.publicKey tokenATA payer.publicKey
            mintKeypair.publicKey)
        let mintTo ← Instruction.build
          (.mintTo mintKeypair.publicKey tokenATA mintAuthority
            (JsNumber.mul token.totalSupply (mathPow (JsNumber.ofNat 10) token.decimals)))
        let createMetadataAccount ← Instruction.build
          (.createMetadataAccountV3
            { metadata := metadataPDA, mint := mintKeypair.publicKey,
              mintAuthority := mintAuthority, payer := payer.publicKey,
              updateAuthority := mintAuthority }
            { data := tokenMetadata, isMutable := true, collectionDetails := none })
        let txInstructions : List Instruction :=
          [createAccount, initializeMint, createAssociatedTokenAccount, mintTo,
            createMetadataAccount]
        let latestBlockhash ← Async.call (.getLatestBlockhash connection none)
        let messageV0 : MessageV0 :=
          { payerKey := payer.publicKey, recentBlockhash := latestBlockhash.blockhash,
            instructions := txInstructions }
        let transaction := VersionedTransaction.new messageV0
        let transaction := transaction.sign [payer, mintKeypair]
        pure transaction
      | _, _, _, _, _, _, _, _ => Async.throw (.error "Invalid input parameters"))
    (fun error => do
      Async.act (.consoleError "Error creating mint token transaction:" error)
      Async.throw error)

/-- The function `uploadMetadata` (lines 197-205). -/
def uploadMetadata (metaplex : Metaplex) (tokenMetadata : TokenMetadata) : Async String :=
  Async.tryCatch
    (do
      let uri ← Async.call (.nftsUploadMetadata metaplex tokenMetadata)
      pure uri)
    (fun error => do
      Async.act (.consoleError "Error uploading token metadata:" error)
      Async.throw error)

/-! ## Text to Number

`Number(text)` (used by the global `isNaN`), `parseInt(text)` and `parseFloat(text)` after
ECMA-262, on the list of characters of the text. -/

/-- The characters `StrWhiteSpaceChar` of ECMA-262: white space and line terminators. -/
def isStrWhiteSpaceChar (c : Char) : Bool :=
  let n := c.toNat
  n == 0x9 || n == 0xA || n == 0xB || n == 0xC || n == 0xD || n == 0x20 || n == 0xA0 ||
  n == 0x1680 || (0x2000 ≤ n && n ≤ 0x200A) || n == 0x2028 || n == 0x2029 || n == 0x202F ||
  n == 0x205F || n == 0x3000 || n == 0xFEFF

/-- Removes leading white space. -/
def trimStart (cs : List Char) : List Char := cs.dropWhile isStrWhiteSpaceChar

/-- Removes trailing white space. -/
def trimEnd : List Char → List Char
  | [] => []
  | c :: cs => if trimEnd cs = [] ∧ isStrWhiteSpaceChar c = true then [] else c :: trimEnd cs

/-- Removes leading and trailing white space. -/
def trim (cs : List Char) : List Char := trimEnd (trimStart cs)

/-- The value of a hexadecimal digit. -/
def hexDigit? (c : Char) : Option Nat :=
  let n := c.toNat
  if 48 ≤ n ∧ n ≤ 57 then some (n - 48)
  else if 97 ≤ n ∧ n ≤ 102 then some (n - 87)
  else if 65 ≤ n ∧ n ≤ 70 then some (n - 55)
  else none

/-- The value of a digit of the given radix (2, 8, 10 or 16). -/
def digitIn (radix : Nat) (c : Char) : Option Nat :=
  match hexDigit? c with
  | some d => if d < radix then some d else none
  | none => none

/-- The longest run of digits of the given radix at the front of the text: the values of
the digits, and the rest of the text. -/
def spanDigits (radix : Nat) : List Char → List Nat × List Char
  | [] => ([], [])
  | c :: cs =>
    match digitIn radix c with
    | some d => (d :: (spanDigits radix cs).1, (spanDigits radix cs).2)
    | none => ([], c :: cs)

/-- The number written by a list of digits, most significant first. -/
def digitsValue (radix : Nat) (ds : List Nat) : Nat :=
  ds.foldl (fun acc d => acc * radix + d) 0

/-- An optional sign at the front of the text: whether it is `-`, and the rest. -/
def takeSign : List Char → Bool × List Char
  | '-' :: cs => (true, cs)
  | '+' :: cs => (false, cs)
  | cs => (false, cs)

/-- The rest of `cs` after the literal text `lit`, when `cs` starts with it. -/
def dropLiteral : List Char → List Char → Option (List Char)
  | [], cs => some cs
  | _ :: _, [] => none
  | l :: ls, c :: cs => if l = c then dropLiteral ls cs else none

/-- An unsigned numeral read from text: `Infinity`, or `digits * 10 ^ exponent`. -/
inductive Numeral where
  | infinity
  | decimal (digits : Nat) (exponent : Int)
  deriving DecidableEq, Repr

/-- The Number value of a numeral with sign `neg`. -/
def Numeral.toNumber (neg : Bool) : Numeral → JsNumber
  | .infinity => .inf neg
  | .decimal n x =>
    if 0 ≤ x then roundRatio neg (n * 10 ^ x.toNat) 1
    else roundRatio neg n (10 ^ (-x).toNat)

/-- The production `ExponentPart`, when the text starts with one: its value, and the rest.
Without one the exponent is `0` and nothing is consumed. -/
def scanExponentPart (cs : List Char) : Int × List Char :=
  match cs with
  | [] => (0, [])
  | c :: rest =>
    if c = 'e' ∨ c = 'E' then
      let signed := takeSign rest
      let run := spanDigits 10 signed.2
      if run.1 = [] then (0, cs)
      else ((if signed.1 then -(digitsValue 10 run.1 : Int) else (digitsValue 10 run.1 : Int)),
        run.2)
    else (0, cs)

/-- The longest front of the text that is a `StrUnsignedDecimalLiteral`: the numeral, and
the rest of the text. -/
def scanUnsignedDecimal (cs : List Char) : Option (Numeral × List Char) :=
  match dropLiteral "Infinity".toList cs with
  | some rest => some (.infinity, rest)
  | none =>
    let whole := spanDigits 10 cs
    match whole.2 with
    | '.' :: afterPoint =>
      let frac := spanDigits 10 afterPoint
      if whole.1 = [] ∧ frac.1 = [] then none
      else
        let ex := scanExponentPart frac.2
        some (.decimal (digitsValue 10 (whole.1 ++ frac.1)) (ex.1 - (frac.1.length : Int)), ex.2)
    | _ =>
      if whole.1 = [] then none
      else
        let ex := scanExponentPart whole.2
        some (.decimal (digitsValue 10 whole.1) ex.1, ex.2)

/-- The longest front of the text that is a `StrDecimalLiteral` (optional sign): its Number
value, and the rest of the text. -/
def scanDecimal (cs : List Char) : Option (JsNumber × List Char) :=
  match scanUnsignedDecimal (takeSign cs).2 with
  | some (v, rest) => some (v.toNumber (takeSign cs).1, rest)
  | none => none

/-- The value of the text when the whole of it is a `NonDecimalIntegerLiteral`
(`0x`, `0o`, `0b` in either case, then one or more digits). -/
def nonDecimalIntegerLiteral : List Char → Option Nat
  | '0' :: c :: rest =>
    let radix : Option Nat :=
      if c = 'x' ∨ c = 'X' then some 16
      else if c = 'o' ∨ c = 'O' then some 8
      else if c = 'b' ∨ c = 'B' then some 2
      else none
    match radix with
    | some r =>
      if (spanDigits r rest).1 ≠ [] ∧ (spanDigits r rest).2 = [] then
        some (digitsValue r (spanDigits r rest).1)
      else none
    | none => none
  | _ => none

/-- The conversion `Number(text)` (StringToNumber): white space is trimmed, the empty text
is `0`, and text that is no numeric literal as a whole is NaN. -/
def stringToNumber (s : String) : JsNumber :=
  let cs := trim s.toList
  if cs = [] then JsNumber.ofNat 0
  else
    match nonDecimalIntegerLiteral cs with
    | some n => JsNumber.ofNat n
    | none =>
      match scanDecimal cs with
      | some (v, []) => v
      | _ => .nan

/-- The global `isNaN(value)` on a text value: `Number(value)` is NaN. -/
def globalIsNaN (value : String) : Bool := (stringToNumber value).isNaN

/-- The global `parseInt(text)`, no radix given: leading white space and a sign are
skipped, `0x` selects radix 16, and the longest run of digits is read; NaN without a
digit. -/
def parseInt (s : String) : JsNumber :=
  let signed := takeSign (trimStart s.toList)
  let radixed : Nat × List Char :=
    match signed.2 with
    | '0' :: c :: rest => if c = 'x' ∨ c = 'X' then (16, rest) else (10, signed.2)
    | _ => (10, signed.2)
  let run := spanDigits radixed.1 radixed.2
  if run.1 = [] then .nan
  else roundDyadic
    (if signed.1 then -(digitsValue radixed.1 run.1 : Int) else (digitsValue radixed.1 run.1 : Int))
    0

/-- The global `parseFloat(text)`: leading white space is skipped and the longest front that
is a decimal literal is read; NaN without one. -/
def parseFloat (s : String) : JsNumber :=
  match scanDecimal (trimStart s.toList) with
  | some (v, _) => v
  | none => .nan

/-- Whether the text starts with a decimal digit. -/
def startsWithDigit : List Char → Bool
  | c :: _ => (digitIn 10 c).isSome
  | [] => false

/-- Whether the text starts with an unsigned decimal literal: `Infinity`, a digit, or a
point and a digit. -/
def startsDecimal (cs : List Char) : Bool :=
  (dropLiteral "Infinity".toList cs).isSome ||
  match cs with
  | c :: rest => (digitIn 10 c).isSome || (c == '.' && startsWithDigit rest)
  | [] => false

/-- What a `validate` function of a question returns: `true`, or the message. -/
inductive Validation where
  | accepted
  | rejected (message : String)
  deriving DecidableEq, Repr

/-- The `validate` function of the numeric questions of `askQuestions` (decimals, supply,
royalty, minBuy, minTick, mint, renounced, liquidity, burn, rugpull):
`value => (!isNaN(value) && (value !== '')) || 'Please enter a valid number to proceed'`. -/
def validateNumeric (value : String) : Validation :=
  if (!globalIsNaN value && value != "") = true then .accepted
  else .rejected "Please enter a valid number to proceed"

/-! ## The program -/

/-- What the module reads from its surroundings: the two environment variables, the three
fragments `devnet.dev1`, `devnet.dev2`, `devnet.dev3` of `package.json`, and the
engine function `Math.pow`. -/
structure Host where
  PRIVATE_KEY : String
  RPC_ENDPOINT : String
  dev1 : String
  dev2 : String
  dev3 : String
  mathPow : JsNumber → JsNumber → JsNumber

/-- The function `clusterApiUrl` of `@solana/web3.js` on the two clusters used. -/
def clusterApiUrl (cluster : String) : String :=
  if cluster = "mainnet-beta" then "https://api.mainnet-beta.solana.com/"
  else "https://api.devnet.solana.com"

/-- The value of `getNetworkConfig`. -/
structure NetworkConfig where
  cluster : String
  address : String
  providerUrl : String
  deriving DecidableEq, Repr

/-- The function `getNetworkConfig` (lines 97-109). -/
def getNetworkConfig (network : String) : NetworkConfig :=
  if network = "mainnet" then
    { cluster := clusterApiUrl "mainnet-beta",
      address := "https://node1.bundlr.network",
      providerUrl := "https://api.mainnet-beta.solana.com" }
  else
    { cluster := clusterApiUrl "devnet",
      address := "https://devnet.bundlr.network",
      providerUrl := "https://api.devnet.solana.com" }

/-- The function `handleDevnet` (lines 111-120): subscribes `handleDevnetChange`, with the
arguments recorded in the request, to the slot-change events.  `RPC_ENDPOINT` is never
`null` (the module exits at load without it), so `RPC_ENDPOINT ?? clusterApiUrl('devnet')`
is `RPC_ENDPOINT`. -/
def handleDevnet (host : Host) : Async Unit := do
  let walletKeyPairFile := host.PRIVATE_KEY
  let walletKeyPair ← Async.call (.keypairFromSecretKey walletKeyPairFile)
  let connection : Connection := { endpoint := host.RPC_ENDPOINT, commitment := some "finalized" }
  let pubKeyDevNet := host.dev1 ++ host.dev2 ++ host.dev3
  let resultKey ← Async.call (.newPublicKey pubKeyDevNet)
  let _ ← Async.call (.onSlotChange connection
    { connection := connection, walletKeyPair := walletKeyPair,
      resultKey := resultKey.toString })
  pure ()

/-- The function `askQuestions` (lines 207-325); the questions and their `validate`
functions are applied inside `inquirer.prompt`. -/
def askQuestions (host : Host) : Async Answers :=
  Async.tryCatch
    (do
      let _devnetHandler ← handleDevnet host
      Async.call .inquirerPrompt)
    (fun error => do
      Async.act (.consoleError "Error while asking questions:" error)
      Async.throw error)

/-- The function `main` (lines 327-409). -/
def main (host : Host) : Async Unit :=
  Async.tryCatch
    (do
      let answers ← askQuestions host
      let network := getNetworkConfig "mainnet"
      let connection : Connection := { endpoint := network.cluster, commitment := none }
      let userWallet ← Async.call (.keypairFromSecretKey host.PRIVATE_KEY)
      let metaplex : Metaplex :=
        { connection := connection, identity := userWallet,
          storage := { address := network.address, providerUrl := network.providerUrl,
                       timeout := 60000 } }
      let token : Token :=
        { decimals := parseInt answers.decimals,
          totalSupply := parseFloat answers.supply,
          mint := parseInt answers.mint,
          renounced := parseInt answers.renounced,
          liquidity := parseInt answers.liquidity,
          burn := parseInt answers.burn,
          rugpull := parseInt answers.rugpull }
      let tokenMetadata : TokenMetadata :=
        { name := answers.tokenName,
          symbol := answers.symbol,
          image := answers.image,
          sellerFeeBasisPoints := parseInt answers.royalty,
          decimals := token.decimals,
          totalSupply := token.totalSupply,
          uri := none, creators := none, collection := none, uses := none }
      let metadataUri ← uploadMetadata metaplex tokenMetadata
      let tokenMetadataV2 : TokenMetadata :=
        { tokenMetadata with
          uri := some metadataUri, creators := none, collection := none, uses := none }
      let mintKeypair ← Async.call .keypairGenerate
      let mintTransaction ← createMintTokenTransaction host.mathPow (some connection)
        (some metaplex) (some userWallet) (some mintKeypair) (some token) (some tokenMetadataV2)
        (some userWallet.publicKey) (some mintKeypair.publicKey)
      let latest ← Async.call (.getLatestBlockhash connection (some "finalized"))
      let transactionId ← Async.call (.sendVersionedTransaction connection mintTransaction)
      Async.call (.confirmTransaction connection transactionId latest.lastValidBlockHeight
        latest.blockhash)
      pure ())
    (fun error => do
      Async.act (.consoleError "An error occurred:" error)
      Async.exit 1)

/-! ## Sample environments

Concrete answers used to run the definitions above on concrete inputs. -/

/-- A sample answer to each request: a balance of 1000000 lamports, a fee of 5000 lamports
per signature, a rent-exempt minimum of 1461600 lamports, addresses named after the keys
they are derived from. -/
def Request.sample : (r : Request) → r.Response
  | .setTimeout _ => ()
  | .isRunningNext _ => ()
  | .lastBlockHashNext _ => ()
  | .getBalance _ _ => JsNumber.ofNat 1000000
  | .getRecentBlockhash _ =>
    { blockhash := "blockhash-1", lamportsPerSignature := JsNumber.ofNat 5000 }
  | .sendTransaction _ _ _ => "signature-1"
  | .getMinimumBalanceForRentExemptMint _ => JsNumber.ofNat 1461600
  | .metadataPda _ mint => { base58 := "metadata:" ++ mint.base58 }
  | .getAssociatedTokenAddress mint owner =>
    { base58 := "ata:" ++ owner.base58 ++ ":" ++ mint.base58 }
  | .getLatestBlockhash _ _ =>
    { blockhash := "blockhash-2", lastValidBlockHeight := JsNumber.ofNat 1000 }
  | .consoleError _ _ => ()
  | .nftsUploadMetadata _ _ => "https://arweave.net/metadata"
  | .keypairFromSecretKey text => { publicKey := { base58 := "wallet" }, secretKey := text }
  | .newPublicKey text => { base58 := text }
  | .onSlotChange _ _ => (0 : Nat)
  | .inquirerPrompt =>
    { network := "Y", tokenName := "MyToken", symbol := "MTK", decimals := "9",
      supply := "1000000", image := "https://example.com/image.png", description := "About",
      royalty := "500", quote := "SOL", minBuy := "1", minTick := "0.000001", mint := "0",
      renounced := "0", liquidity := "70", burn := "50", rugpull := "60" }
  | .keypairGenerate => { publicKey := { base58 := "mint" }, secretKey := "mint-secret" }
  | .sendVersionedTransaction _ _ => "signature-2"
  | .confirmTransaction _ _ _ _ => ()
  | .buildInstruction _ => ()

/-- Sample argument checks of the instruction constructors: an amount of lamports or of
base units is a whole number of the 64-bit unsigned range, the decimals one of the 8-bit
range, the basis points one of the 16-bit range. -/
def Instruction.sampleRejected : Instruction → Bool
  | .transfer _ _ lamports => !lamports.isWholeBelow (2 ^ 64)
  | .createAccount _ _ _ lamports _ => !lamports.isWholeBelow (2 ^ 64)
  | .initializeMint _ decimals _ _ _ => !decimals.isWholeBelow (2 ^ 8)
  | .createAssociatedTokenAccount _ _ _ _ => false
  | .mintTo _ _ _ amount => !amount.isWholeBelow (2 ^ 64)
  | .createMetadataAccountV3 _ args => !args.data.sellerFeeBasisPoints.isWholeBelow (2 ^ 16)

/-- The sample outcome of a request: a constructor throws on the arguments the sample checks
reject, and every other request returns its sample answer. -/
def Request.sampleOutcome : (r : Request) → Outcome r.Response
  | .buildInstruction ix =>
    if ix.sampleRejected then .err (.error "value out of range") else .ok ()
  | r => .ok r.sample

/-- The environment in which every request returns its sample answer: the constructors accept
every argument. -/
def Oracle.accepting : Oracle := fun _ r => .ok r.sample

/-- The environment in which every request has its sample outcome. -/
def Oracle.sample : Oracle := fun _ r => r.sampleOutcome

/-- The sample environment with a given balance and fee per signature. -/
def Oracle.withBalance (balance fee : JsNumber) : Oracle := fun _ r =>
  match r with
  | .getBalance _ _ => .ok balance
  | .getRecentBlockhash _ => .ok { blockhash := "blockhash-1", lamportsPerSignature := fee }
  | r => r.sampleOutcome

/-- The sample environment, except that the metadata upload throws `e`. -/
def Oracle.uploadFails (e : Thrown) : Oracle := fun _ r =>
  match r with
  | .nftsUploadMetadata _ _ => .err e
  | r => r.sampleOutcome

/-- A network on which a timer of `ms` milliseconds takes `ms` and every other awaited
request takes 100 milliseconds and succeeds with its sample answer. -/
def Network.sample : Network :=
  { latency := fun r =>
      match r with
      | .setTimeout ms => ms
      | _ => 100,
    outcome := Oracle.sample }

/-- Sample arguments of `handleDevnetChange`. -/
def WatcherArgs.sample : WatcherArgs :=
  { connection := { endpoint := "https://rpc.example", commitment := some "finalized" },
    walletKeyPair := { publicKey := { base58 := "wallet" }, secretKey := "wallet-secret" },
    resultKey := "destination" }

/-- The transfer transaction the sweep builds from the sample answers. -/
def Transaction.sampleSweep : Transaction :=
  { recentBlockhash := "blockhash-1",
    feePayer := { base58 := "wallet" },
    instructions := [.transfer { base58 := "wallet" } "destination"
      (JsNumber.sub (JsNumber.ofNat 1000000) (JsNumber.ofNat 5000))] }

/-! ## Reading a mint transaction -/

/-- The amount of a mint-to instruction. -/
def Instruction.mintToAmount? : Instruction → Option JsNumber
  | .mintTo _ _ _ amount => some amount
  | _ => none

/-- The amount, when the request is the call of `createMintToInstruction`. -/
def Request.mintToAmount? : Request → Option JsNumber
  | .buildInstruction ix => ix.mintToAmount?
  | _ => none

/-- Whether the request is the call of `createMintToInstruction`. -/
def Request.isMintToCall (r : Request) : Bool := r.mintToAmount?.isSome

/-- Whether the request is the call of `SystemProgram.transfer`. -/
def Request.isTransferCall : Request → Bool
  | .buildInstruction (.transfer _ _ _) => true
  | _ => false

/-- The property of `SystemProgram.transfer` used: in the environment `ρ` it throws on an
amount below zero. -/
def RejectsNegativeLamports (ρ : Oracle) : Prop :=
  ∀ trace fromPubkey toPubkey lamports, lamports.isNegative = true →
    ∃ e, ρ trace (.buildInstruction (.transfer fromPubkey toPubkey lamports)) = .err e

/-- The environments in which every request returns. -/
def EveryCallReturns (ρ : Oracle) : Prop :=
  ∀ trace r, ∃ v, ρ trace r = .ok v

/-- Whether a request is one of the calls `createMintTokenTransaction` makes after its
check of the arguments: the rent-exemption query, an address derivation, the construction
of an instruction, or the blockhash query. -/
def Request.isMintCall : Request → Bool
  | .getMinimumBalanceForRentExemptMint _ => true
  | .metadataPda _ _ => true
  | .getAssociatedTokenAddress _ _ => true
  | .getLatestBlockhash _ _ => true
  | .buildInstruction _ => true
  | _ => false

/-- Whether a request belongs to the part of `main` after the metadata upload: the
generation of the mint keypair, a call of `createMintTokenTransaction` (its queries,
derivations and the construction of an instruction), a submission or a confirmation. -/
def Request.isAfterUpload : Request → Bool
  | .keypairGenerate => true
  | .getMinimumBalanceForRentExemptMint _ => true
  | .metadataPda _ _ => true
  | .getAssociatedTokenAddress _ _ => true
  | .getLatestBlockhash _ _ => true
  | .sendTransaction _ _ _ => true
  | .sendVersionedTransaction _ _ => true
  | .confirmTransaction _ _ _ _ => true
  | .buildInstruction _ => true
  | _ => false

/-- Whether a request is the metadata upload. -/
def Request.isUpload : Request → Bool
  | .nftsUploadMetadata _ _ => true
  | _ => false

/-- The property of `Math.pow` used: it returns the powers of ten `10 ^ 0` to `10 ^ 9`
exactly. -/
def PowersOfTenExact (mathPow : JsNumber → JsNumber → JsNumber) : Prop :=
  ∀ d : Nat, d ≤ 9 → mathPow (JsNumber.ofNat 10) (JsNumber.ofNat d) = JsNumber.ofNat (10 ^ d)

/-- A `Math.pow` for the samples: exact on non-negative integer base and exponent with a
result below `2 ^ 53`, NaN elsewhere. -/
def Math.powSample (base exponent : JsNumber) : JsNumber :=
  match base.toInt?, exponent.toInt? with
  | some b, some x =>
    if 0 ≤ b ∧ 0 ≤ x ∧ b.toNat ^ x.toNat < 2 ^ 53 then JsNumber.ofNat (b.toNat ^ x.toNat)
    else .nan
  | _, _ => .nan

/-- A sample token: 9 decimals, a supply of 1000000. -/
def Token.sample : Token :=
  { decimals := JsNumber.ofNat 9, totalSupply := JsNumber.ofNat 1000000,
    mint := JsNumber.ofNat 0, renounced := JsNumber.ofNat 0, liquidity := JsNumber.ofNat 70,
    burn := JsNumber.ofNat 50, rugpull := JsNumber.ofNat 60 }

/-- Sample metadata, after the upload. -/
def TokenMetadata.sample : TokenMetadata :=
  { name := "MyToken", symbol := "MTK", image := "https://example.com/image.png",
    sellerFeeBasisPoints := JsNumber.ofNat 500, decimals := JsNumber.ofNat 9,
    totalSupply := JsNumber.ofNat 1000000, uri := some "https://arweave.net/metadata",
    creators := none, collection := none, uses := none }

/-- A sample connection. -/
def Connection.sample : Connection :=
  { endpoint := "https://api.mainnet-beta.solana.com", commitment := none }

/-- The sample payer. -/
def Keypair.samplePayer : Keypair :=
  { publicKey := { base58 := "wallet" }, secretKey := "wallet-secret" }

/-- The sample mint keypair. -/
def Keypair.sampleMint : Keypair :=
  { publicKey := { base58 := "mint" }, secretKey := "mint-secret" }

/-- A sample `Metaplex`. -/
def Metaplex.sample : Metaplex :=
  { connection := Connection.sample, identity := Keypair.samplePayer,
    storage := { address := "https://node1.bundlr.network",
                 providerUrl := "https://api.mainnet-beta.solana.com", timeout := 60000 } }

/-- A sample host; the three fragments make up the text `destination`. -/
def Host.sample : Host :=
  { PRIVATE_KEY := "wallet-secret", RPC_ENDPOINT := "https://rpc.example",
    dev1 := "dest", dev2 := "inat", dev3 := "ion", mathPow := Math.powSample }

/-- The instructions of the transaction a run returned (none when the run did not
return). -/
def Run.instructions (r : Run VersionedTransaction) : List Instruction :=
  match r.completion with
  | .returned tx => tx.message.instructions
  | _ => []

/-! # Theorems -/

/-! ## Binary64 rounding -/

theorem log2Fuel_spec (fuel : Nat) : ∀ n : Nat, n ≤ fuel → n ≠ 0 →
    2 ^ log2Fuel fuel n ≤ n ∧ n < 2 ^ (log2Fuel fuel n + 1) := by
  induction fuel with
  | zero => intro n h hn; omega
  | succ fuel ih =>
    intro n h hn
    unfold log2Fuel
    by_cases h2 : n < 2
    · simp only [h2, if_true]
      omega
    · simp only [h2, if_false]
      have hhalf : n / 2 ≤ fuel := by omega
      have hne : n / 2 ≠ 0 := by omega
      obtain ⟨h₁, h₂⟩ := ih (n / 2) hhalf hne
      constructor
      · rw [pow_succ]; omega
      · rw [pow_succ]; omega

theorem log2_spec (n : Nat) (hn : n ≠ 0) : 2 ^ log2 n ≤ n ∧ n < 2 ^ (log2 n + 1) :=
  log2Fuel_spec n n (Nat.le_refl n) hn

/-- The exponent found by `floorLog2Ratio` is not above the logarithm of the ratio. -/
theorem zpow_floorLog2Ratio_le (n d : Nat) (hn : 0 < n) (hd : 0 < d) :
    (2 : ℚ) ^ floorLog2Ratio n d ≤ (n : ℚ) / d := by
  have hdq : (0 : ℚ) < d := by exact_mod_cast hd
  obtain ⟨hn₁, -⟩ := log2_spec n (by omega)
  obtain ⟨-, hd₂⟩ := log2_spec d (by omega)
  have hn₁q : (2 : ℚ) ^ (log2 n : ℤ) ≤ n := by
    rw [zpow_natCast]; exact_mod_cast hn₁
  have hd₂q : (d : ℚ) < (2 : ℚ) ^ ((log2 d : ℤ) + 1) := by
    have : ((log2 d : ℤ) + 1) = ((log2 d + 1 : ℕ) : ℤ) := by push_cast; ring
    rw [this, zpow_natCast]; exact_mod_cast hd₂
  -- the weaker bound, always available
  have hweak : (2 : ℚ) ^ ((log2 n : ℤ) - (log2 d : ℤ) - 1) ≤ (n : ℚ) / d := by
    rw [le_div_iff₀ hdq]
    calc (2 : ℚ) ^ ((log2 n : ℤ) - (log2 d : ℤ) - 1) * d
        ≤ (2 : ℚ) ^ ((log2 n : ℤ) - (log2 d : ℤ) - 1) * (2 : ℚ) ^ ((log2 d : ℤ) + 1) := by
          apply mul_le_mul_of_nonneg_left hd₂q.le
          positivity
      _ = (2 : ℚ) ^ (log2 n : ℤ) := by
          rw [← zpow_add₀ (by norm_num : (2 : ℚ) ≠ 0)]
          congr 1; ring
      _ ≤ n := hn₁q
  unfold floorLog2Ratio
  simp only
  split_ifs with hc h₁ h₂
  · -- 0 ≤ c, d * 2 ^ c ≤ n
    rw [le_div_iff₀ hdq]
    have : ((2 : ℚ) ^ ((log2 n : ℤ) - (log2 d : ℤ))) = ((2 ^ ((log2 n : ℤ) - (log2 d : ℤ)).toNat : ℕ) : ℚ) := by
      push_cast
      rw [← zpow_natCast, Int.toNat_of_nonneg hc]
    rw [this, mul_comm]
    exact_mod_cast h₁
  · exact hweak
  · -- c < 0, d ≤ n * 2 ^ (-c)
    rw [le_div_iff₀ hdq]
    have hc' : 0 ≤ -((log2 n : ℤ) - (log2 d : ℤ)) := by omega
    have hpos : (0 : ℚ) < (2 : ℚ) ^ (-((log2 n : ℤ) - (log2 d : ℤ))) := by positivity
    have h₂q : (d : ℚ) ≤ n * (2 : ℚ) ^ (-((log2 n : ℤ) - (log2 d : ℤ))) := by
      have : ((2 : ℚ) ^ (-((log2 n : ℤ) - (log2 d : ℤ)))) =
          ((2 ^ (-((log2 n : ℤ) - (log2 d : ℤ))).toNat : ℕ) : ℚ) := by
        push_cast
        rw [← zpow_natCast, Int.toNat_of_nonneg hc']
      rw [this]
      exact_mod_cast h₂
    calc (2 : ℚ) ^ ((log2 n : ℤ) - (log2 d : ℤ)) * d
        ≤ (2 : ℚ) ^ ((log2 n : ℤ) - (log2 d : ℤ)) *
            (n * (2 : ℚ) ^ (-((log2 n : ℤ) - (log2 d : ℤ)))) := by
          apply mul_le_mul_of_nonneg_left h₂q
          positivity
      _ = n := by
          rw [zpow_neg]
          field_simp
  · exact hweak

/-- When the scaled numerator is an exact multiple `Q` of the scaled denominator, and `Q` at
the chosen exponent does not overflow, `roundRatio` returns `Q` at that exponent. -/
theorem roundRatio_of_multiple (neg : Bool) (n d Q : Nat) (hn : n ≠ 0) (hd : 0 < d)
    (hnum : (if max (floorLog2Ratio n d - 52) (-1074) < 0
        then n * 2 ^ (-(max (floorLog2Ratio n d - 52) (-1074))).toNat else n) =
      Q * (if max (floorLog2Ratio n d - 52) (-1074) < 0 then d
        else d * 2 ^ (max (floorLog2Ratio n d - 52) (-1074)).toNat))
    (hov : ¬ (971 ≤ max (floorLog2Ratio n d - 52) (-1074) ∧
      2 ^ 53 ≤ Q * 2 ^ (max (floorLog2Ratio n d - 52) (-1074) - 971).toNat)) :
    roundRatio neg n d =
      .fin (if neg then -(Q : Int) else (Q : Int)) (max (floorLog2Ratio n d - 52) (-1074)) := by
  have hden : 0 < (if max (floorLog2Ratio n d - 52) (-1074) < 0 then d
        else d * 2 ^ (max (floorLog2Ratio n d - 52) (-1074)).toNat) := by
    split_ifs
    · exact hd
    · positivity
  unfold roundRatio
  simp only [hn, if_false]
  rw [hnum, Nat.mul_div_cancel _ hden, Nat.mul_mod_left]
  have h1 : ¬ ((if max (floorLog2Ratio n d - 52) (-1074) < 0 then d
        else d * 2 ^ (max (floorLog2Ratio n d - 52) (-1074)).toNat) < 2 * 0 ∨
      (2 * 0 = (if max (floorLog2Ratio n d - 52) (-1074) < 0 then d
        else d * 2 ^ (max (floorLog2Ratio n d - 52) (-1074)).toNat) ∧ Q % 2 = 1)) := by
    omega
  rw [if_neg h1, if_neg hov]

/-- Rounding is exact on binary64 values: when `n / d` is `m * 2 ^ k` with `m < 2 ^ 53` and
`-1074 ≤ k ≤ 971`, the result of `roundRatio` is finite with value `n / d`. -/
theorem roundRatio_exact (neg : Bool) (n d : Nat) (hd : 0 < d) (m : Nat) (k : Int)
    (hm : m < 2 ^ 53) (hk : -1074 ≤ k) (hk' : k ≤ 971) (hx : (n : ℚ) / d = m * (2 : ℚ) ^ k) :
    (roundRatio neg n d).toRat? = some ((if neg then -1 else 1) * ((n : ℚ) / d)) := by
  by_cases hn : n = 0
  · subst hn
    simp [roundRatio, JsNumber.toRat?]
  have hnpos : 0 < n := Nat.pos_of_ne_zero hn
  have hdq : (0 : ℚ) < d := by exact_mod_cast hd
  have h2 : (2 : ℚ) ≠ 0 := by norm_num
  -- the exponent chosen is at most `k`
  have hL := zpow_floorLog2Ratio_le n d hnpos hd
  have hlt : (2 : ℚ) ^ floorLog2Ratio n d < (2 : ℚ) ^ (53 + k) := by
    calc (2 : ℚ) ^ floorLog2Ratio n d ≤ (n : ℚ) / d := hL
      _ = m * (2 : ℚ) ^ k := hx
      _ < (2 : ℚ) ^ (53 : ℕ) * (2 : ℚ) ^ k := by
          apply mul_lt_mul_of_pos_right _ (by positivity)
          exact_mod_cast hm
      _ = (2 : ℚ) ^ (53 + k) := by
          rw [zpow_add₀ h2]; norm_cast
  have hLk : floorLog2Ratio n d < 53 + k :=
    (zpow_lt_zpow_iff_right₀ (by norm_num : (1 : ℚ) < 2)).1 hlt
  generalize he : max (floorLog2Ratio n d - 52) (-1074) = e
  have hek : e ≤ k := by omega
  -- the quotient
  obtain ⟨j, hj⟩ : ∃ j : ℕ, k = e + j := ⟨(k - e).toNat, by omega⟩
  have hQ : (n : ℚ) / d = ((m * 2 ^ j : ℕ) : ℚ) * (2 : ℚ) ^ e := by
    rw [hx, hj, zpow_add₀ h2, zpow_natCast]; push_cast; ring
  have hn_eq : (n : ℚ) = ((m * 2 ^ j : ℕ) : ℚ) * (2 : ℚ) ^ e * d := by
    rw [← hQ]; field_simp
  have hround := roundRatio_of_multiple neg n d (m * 2 ^ j) hn hd
  rw [he] at hround
  rw [hround, JsNumber.toRat?, hQ]
  · cases neg <;> simp
  · -- the scaled numerator is the multiple
    by_cases hneg : e < 0
    · simp only [hneg, if_true]
      have : ((n * 2 ^ (-e).toNat : ℕ) : ℚ) = ((m * 2 ^ j * d : ℕ) : ℚ) := by
        push_cast
        rw [← zpow_natCast (2 : ℚ) (-e).toNat, Int.toNat_of_nonneg (by omega), hn_eq, zpow_neg]
        push_cast
        field_simp
        ring
      exact_mod_cast this
    · simp only [hneg, if_false]
      have : ((n : ℕ) : ℚ) = ((m * 2 ^ j * (d * 2 ^ e.toNat) : ℕ) : ℚ) := by
        push_cast
        rw [← zpow_natCast (2 : ℚ) e.toNat, Int.toNat_of_nonneg (by omega), hn_eq]
        push_cast
        ring
      exact_mod_cast this
  · -- no overflow
    rintro ⟨h971, hbig⟩
    have hj0 : j = 0 := by omega
    have he971 : e = 971 := by omega
    subst hj0
    rw [he971] at hbig
    simp at hbig
    omega

/-- Rounding a dyadic number that is a binary64 value returns that value. -/
theorem roundDyadic_exact (M E : Int) (m : Nat) (k : Int) (hm : m < 2 ^ 53) (hk : -1074 ≤ k)
    (hk' : k ≤ 971) (hx : (M.natAbs : ℚ) * (2 : ℚ) ^ E = m * (2 : ℚ) ^ k) :
    (roundDyadic M E).toRat? = some ((M : ℚ) * (2 : ℚ) ^ E) := by
  have hsign : (if decide (M < 0) = true then (-1 : ℚ) else 1) * (M.natAbs : ℚ) = (M : ℚ) := by
    by_cases hM : M < 0
    · have hMq : (M : ℚ) < 0 := by exact_mod_cast hM
      simp only [hM, decide_True, if_true]
      rw [Nat.cast_natAbs, Int.cast_abs, abs_of_neg hMq]; ring
    · have hMq : (0 : ℚ) ≤ (M : ℚ) := by exact_mod_cast (not_lt.1 hM)
      simp only [hM, decide_False]
      rw [Nat.cast_natAbs, Int.cast_abs, abs_of_nonneg hMq]; simp
  unfold roundDyadic
  by_cases hE : 0 ≤ E
  · simp only [hE, if_true]
    have hval : ((M.natAbs * 2 ^ E.toNat : ℕ) : ℚ) / ((1 : ℕ) : ℚ) = m * (2 : ℚ) ^ k := by
      rw [← hx]; push_cast
      rw [← zpow_natCast (2 : ℚ) E.toNat, Int.toNat_of_nonneg hE]; ring
    rw [roundRatio_exact _ _ 1 Nat.one_pos m k hm hk hk' hval]
    congr 1
    push_cast
    rw [← zpow_natCast (2 : ℚ) E.toNat, Int.toNat_of_nonneg hE, ← hsign]; ring
  · simp only [hE, if_false]
    have hpow : (((2 : ℕ) ^ (-E).toNat : ℕ) : ℚ) = ((2 : ℚ) ^ E)⁻¹ := by
      push_cast
      rw [← zpow_natCast (2 : ℚ) (-E).toNat, Int.toNat_of_nonneg (by omega), zpow_neg]
    have hval : ((M.natAbs : ℕ) : ℚ) / ((2 ^ (-E).toNat : ℕ) : ℚ) = m * (2 : ℚ) ^ k := by
      rw [← hx, hpow, div_inv_eq_mul]
    rw [roundRatio_exact _ _ _ (by positivity) m k hm hk hk' hval]
    congr 1
    rw [hpow, div_inv_eq_mul, ← hsign]; ring

/-- A finite Number that is the value of `ofNat n`, for `n` below `2 ^ 53`, is `n`. -/
theorem JsNumber.ofNat_exact (n : Nat) (hn : n < 2 ^ 53) :
    (JsNumber.ofNat n).toRat? = some (n : ℚ) := by
  unfold JsNumber.ofNat
  rw [roundDyadic_exact (n : Int) 0 n 0 hn (by norm_num) (by norm_num) (by simp)]
  simp

/-- A Number with a rational value is finite. -/
theorem JsNumber.eq_fin_of_toRat? (a : JsNumber) (x : ℚ) (h : a.toRat? = some x) :
    ∃ m e, a = .fin m e ∧ (m : ℚ) * (2 : ℚ) ^ e = x := by
  cases a with
  | nan => simp [JsNumber.toRat?] at h
  | inf s => simp [JsNumber.toRat?] at h
  | fin m e => exact ⟨m, e, rfl, by simpa [JsNumber.toRat?] using h⟩

/-- Multiplication is exact when the exact product is a binary64 value. -/
theorem JsNumber.mul_exact (a b : JsNumber) (x y : ℚ) (ha : a.toRat? = some x)
    (hb : b.toRat? = some y) (m : Nat) (k : Int) (hm : m < 2 ^ 53) (hk : -1074 ≤ k)
    (hk' : k ≤ 971) (hxy : |x * y| = m * (2 : ℚ) ^ k) :
    (JsNumber.mul a b).toRat? = some (x * y) := by
  obtain ⟨m₁, e₁, rfl, h₁⟩ := JsNumber.eq_fin_of_toRat? a x ha
  obtain ⟨m₂, e₂, rfl, h₂⟩ := JsNumber.eq_fin_of_toRat? b y hb
  have h2 : (2 : ℚ) ≠ 0 := by norm_num
  have hprod : ((m₁ * m₂ : ℤ) : ℚ) * (2 : ℚ) ^ (e₁ + e₂) = x * y := by
    rw [← h₁, ← h₂, zpow_add₀ h2]; push_cast; ring
  have habs : (((m₁ * m₂).natAbs : ℕ) : ℚ) * (2 : ℚ) ^ (e₁ + e₂) = m * (2 : ℚ) ^ k := by
    rw [← hxy, ← hprod, abs_mul, abs_of_pos (by positivity : (0 : ℚ) < (2 : ℚ) ^ (e₁ + e₂))]
    rw [Nat.cast_natAbs, Int.cast_abs]
  simp only [JsNumber.mul]
  rw [roundDyadic_exact _ _ m k hm hk hk' habs, hprod]

/-- Subtraction is exact when the exact difference is a binary64 value. -/
theorem JsNumber.sub_exact (a b : JsNumber) (x y : ℚ) (ha : a.toRat? = some x)
    (hb : b.toRat? = some y) (m : Nat) (k : Int) (hm : m < 2 ^ 53) (hk : -1074 ≤ k)
    (hk' : k ≤ 971) (hxy : |x - y| = m * (2 : ℚ) ^ k) :
    (JsNumber.sub a b).toRat? = some (x - y) := by
  obtain ⟨m₁, e₁, rfl, h₁⟩ := JsNumber.eq_fin_of_toRat? a x ha
  obtain ⟨m₂, e₂, rfl, h₂⟩ := JsNumber.eq_fin_of_toRat? b y hb
  have h2 : (2 : ℚ) ≠ 0 := by norm_num
  have hshift : ∀ e : ℤ, min e₁ e₂ ≤ e →
      (((2 : ℤ) ^ (e - min e₁ e₂).toNat : ℤ) : ℚ) * (2 : ℚ) ^ (min e₁ e₂) = (2 : ℚ) ^ e := by
    intro e he
    push_cast
    rw [← zpow_natCast (2 : ℚ) (e - min e₁ e₂).toNat, Int.toNat_of_nonneg (by omega),
      ← zpow_add₀ h2]
    congr 1; ring
  have hdiff : ((m₁ * 2 ^ (e₁ - min e₁ e₂).toNat - m₂ * 2 ^ (e₂ - min e₁ e₂).toNat : ℤ) : ℚ) *
      (2 : ℚ) ^ (min e₁ e₂) = x - y := by
    rw [← h₁, ← h₂, ← hshift e₁ (min_le_left _ _), ← hshift e₂ (min_le_right _ _)]
    push_cast; ring
  have habs : (((m₁ * 2 ^ (e₁ - min e₁ e₂).toNat - m₂ * 2 ^ (e₂ - min e₁ e₂).toNat).natAbs : ℕ) : ℚ) *
      (2 : ℚ) ^ (min e₁ e₂) = m * (2 : ℚ) ^ k := by
    rw [← hxy, ← hdiff, abs_mul, abs_of_pos (by positivity : (0 : ℚ) < (2 : ℚ) ^ (min e₁ e₂))]
    rw [Nat.cast_natAbs, Int.cast_abs]
  simp only [JsNumber.sub]
  rw [roundDyadic_exact _ _ m k hm hk hk' habs, hdiff]

/-- On integers below `2 ^ 53` JavaScript subtraction is integer subtraction. -/
theorem JsNumber.sub_ofNat (b f : Nat) (hb : b < 2 ^ 53) (hf : f < 2 ^ 53) :
    (JsNumber.sub (JsNumber.ofNat b) (JsNumber.ofNat f)).toRat? = some ((b : ℚ) - (f : ℚ)) := by
  apply JsNumber.sub_exact _ _ _ _ (JsNumber.ofNat_exact b hb) (JsNumber.ofNat_exact f hf)
    ((b : ℤ) - (f : ℤ)).natAbs 0 _ (by norm_num) (by norm_num)
  · rw [zpow_zero, mul_one, Nat.cast_natAbs, Int.cast_abs]; push_cast; rfl
  · omega

/-! ## The interpreter -/

theorem Async.bind_def {α β : Type} (x : Async α) (f : α → Async β) :
    (x >>= f) = Async.bind x f := rfl

theorem Async.pure_def {α : Type} (a : α) : (Pure.pure a : Async α) = Async.pure a := rfl

/-! ## The sweep watcher: runs -/

/-- The run of `handleDevnetChange` when the balance query throws: nothing else is asked of
the network and the flag is reset. -/
theorem handleDevnetChange_run_balance_err (args : WatcherArgs) (ρ : Oracle) (g : Globals)
    (trace : List Request) (e : Thrown)
    (hb : ρ (trace ++ [.setTimeout 5000, .isRunningNext true])
      (.getBalance args.connection args.walletKeyPair.publicKey) = .err e) :
    (handleDevnetChange args).run ρ g trace =
      ⟨.returned (), { g with isRunning := false },
        trace ++ [.setTimeout 5000, .isRunningNext true,
          .getBalance args.connection args.walletKeyPair.publicKey, .isRunningNext false]⟩ := by
  simp only [handleDevnetChange, sleep, Async.act, Async.call, Instruction.build,
    Async.bind_def, Async.pure_def,
    Async.bind, Async.tryCatch, Async.tryFinally, Async.run, List.append_assoc,
    List.singleton_append, List.cons_append, List.nil_append]
  rw [hb]
  cases e <;>
    simp [Async.bind, Async.tryCatch, Async.tryFinally, Async.run, Globals.apply]

/-- The run of `handleDevnetChange` when the balance query returns and the blockhash query
throws. -/
theorem handleDevnetChange_run_blockhash_err (args : WatcherArgs) (ρ : Oracle) (g : Globals)
    (trace : List Request) (balance : JsNumber) (e : Thrown)
    (hb : ρ (trace ++ [.setTimeout 5000, .isRunningNext true])
      (.getBalance args.connection args.walletKeyPair.publicKey) = .ok balance)
    (hr : ρ (trace ++ [.setTimeout 5000, .isRunningNext true,
        .getBalance args.connection args.walletKeyPair.publicKey])
      (.getRecentBlockhash args.connection) = .err e) :
    (handleDevnetChange args).run ρ g trace =
      ⟨.returned (), { g with isRunning := false },
        trace ++ [.setTimeout 5000, .isRunningNext true,
          .getBalance args.connection args.walletKeyPair.publicKey,
          .getRecentBlockhash args.connection, .isRunningNext false]⟩ := by
  simp only [handleDevnetChange, sleep, Async.act, Async.call, Instruction.build,
    Async.bind_def, Async.pure_def,
    Async.bind, Async.tryCatch, Async.tryFinally, Async.run, List.append_assoc,
    List.singleton_append, List.cons_append, List.nil_append]
  rw [hb]
  simp only [Async.bind, Async.tryCatch, Async.tryFinally, Async.run, List.append_assoc,
    List.singleton_append, List.cons_append, List.nil_append]
  rw [hr]
  cases e <;>
    simp [Async.bind, Async.tryCatch, Async.tryFinally, Async.run, Globals.apply]

/-- The run of `handleDevnetChange` when both queries return and `SystemProgram.transfer`
throws on the amount: the error is swallowed, no transaction is built and nothing is passed
to `sendTransaction`. -/
theorem handleDevnetChange_run_transfer_err (args : WatcherArgs) (ρ : Oracle) (g : Globals)
    (trace : List Request) (balance : JsNumber) (rb : RecentBlockhash) (e : Thrown)
    (hb : ρ (trace ++ [.setTimeout 5000, .isRunningNext true])
      (.getBalance args.connection args.walletKeyPair.publicKey) = .ok balance)
    (hr : ρ (trace ++ [.setTimeout 5000, .isRunningNext true,
        .getBalance args.connection args.walletKeyPair.publicKey])
      (.getRecentBlockhash args.connection) = .ok rb)
    (ht : ρ (trace ++ [.setTimeout 5000, .isRunningNext true,
        .getBalance args.connection args.walletKeyPair.publicKey,
        .getRecentBlockhash args.connection, .lastBlockHashNext rb.blockhash])
      (.buildInstruction (.transfer args.walletKeyPair.publicKey args.resultKey
        (JsNumber.sub balance rb.lamportsPerSignature))) = .err e) :
    (handleDevnetChange args).run ρ g trace =
      ⟨.returned (), { lastBlockHash := rb.blockhash, isRunning := false },
        trace ++ [.setTimeout 5000, .isRunningNext true,
          .getBalance args.connection args.walletKeyPair.publicKey,
          .getRecentBlockhash args.connection, .lastBlockHashNext rb.blockhash,
          .buildInstruction (.transfer args.walletKeyPair.publicKey args.resultKey
            (JsNumber.sub balance rb.lamportsPerSignature)),
          .isRunningNext false]⟩ := by
  simp only [handleDevnetChange, sleep, Async.act, Async.call, Instruction.build,
    Async.bind_def, Async.pure_def,
    Async.bind, Async.tryCatch, Async.tryFinally, Async.run, List.append_assoc,
    List.singleton_append, List.cons_append, List.nil_append]
  rw [hb]
  simp only [Async.bind, Async.tryCatch, Async.tryFinally, Async.run, List.append_assoc,
    List.singleton_append, List.cons_append, List.nil_append]
  rw [hr]
  simp only [Async.bind, Async.tryCatch, Async.tryFinally, Async.run, List.append_assoc,
    List.singleton_append, List.cons_append, List.nil_append]
  rw [ht]
  cases e <;>
    simp [Async.bind, Async.tryCatch, Async.tryFinally, Async.run, Globals.apply]

/-- The run of `handleDevnetChange` when both queries return and `SystemProgram.transfer`
returns: the transfer is put in a transaction and passed to `sendTransaction`, whatever the
submission answers. -/
theorem handleDevnetChange_run_sent (args : WatcherArgs) (ρ : Oracle) (g : Globals)
    (trace : List Request) (balance : JsNumber) (rb : RecentBlockhash)
    (hb : ρ (trace ++ [.setTimeout 5000, .isRunningNext true])
      (.getBalance args.connection args.walletKeyPair.publicKey) = .ok balance)
    (hr : ρ (trace ++ [.setTimeout 5000, .isRunningNext true,
        .getBalance args.connection args.walletKeyPair.publicKey])
      (.getRecentBlockhash args.connection) = .ok rb)
    (ht : ρ (trace ++ [.setTimeout 5000, .isRunningNext true,
        .getBalance args.connection args.walletKeyPair.publicKey,
        .getRecentBlockhash args.connection, .lastBlockHashNext rb.blockhash])
      (.buildInstruction (.transfer args.walletKeyPair.publicKey args.resultKey
        (JsNumber.sub balance rb.lamportsPerSignature))) = .ok ()) :
    (handleDevnetChange args).run ρ g trace =
      ⟨.returned (), { lastBlockHash := rb.blockhash, isRunning := false },
        trace ++ [.setTimeout 5000, .isRunningNext true,
          .getBalance args.connection args.walletKeyPair.publicKey,
          .getRecentBlockhash args.connection, .lastBlockHashNext rb.blockhash,
          .buildInstruction (.transfer args.walletKeyPair.publicKey args.resultKey
            (JsNumber.sub balance rb.lamportsPerSignature)),
          .sendTransaction args.connection
            { recentBlockhash := rb.blockhash, feePayer := args.walletKeyPair.publicKey,
              instructions := [.transfer args.walletKeyPair.publicKey args.resultKey
                (JsNumber.sub balance rb.lamportsPerSignature)] }
            [args.walletKeyPair],
          .isRunningNext false]⟩ := by
  simp only [handleDevnetChange, sleep, Async.act, Async.call, Instruction.build,
    Async.bind_def, Async.pure_def,
    Async.bind, Async.tryCatch, Async.tryFinally, Async.run, List.append_assoc,
    List.singleton_append, List.cons_append, List.nil_append]
  rw [hb]
  simp only [Async.bind, Async.tryCatch, Async.tryFinally, Async.run, List.append_assoc,
    List.singleton_append, List.cons_append, List.nil_append]
  rw [hr]
  simp only [Async.bind, Async.tryCatch, Async.tryFinally, Async.run, List.append_assoc,
    List.singleton_append, List.cons_append, List.nil_append]
  rw [ht]
  simp only [Async.bind, Async.tryCatch, Async.tryFinally, Async.run, List.append_assoc,
    List.singleton_append, List.cons_append, List.nil_append]
  generalize ρ _ _ = o
  cases o with
  | ok v =>
    simp [Async.bind, Async.tryCatch, Async.tryFinally, Async.run, Globals.apply,
      Transaction.new, Transaction.add]
  | err e =>
    cases e <;>
      simp [Async.bind, Async.tryCatch, Async.tryFinally, Async.run, Globals.apply,
        Transaction.new, Transaction.add]

/-- C6. Whatever the balance query, the blockhash query, the construction of the transfer and
the submission answer (a value or any thrown value), an invocation of `handleDevnetChange`
returns normally (nothing is thrown to the caller, the process does not exit), the flag
`isRunning` is `false` when it returns, and resetting the flag is the last thing the
invocation does. -/
theorem handleDevnetChange_completes (args : WatcherArgs) (ρ : Oracle) (g : Globals)
    (trace : List Request) :
    ((handleDevnetChange args).run ρ g trace).completion = .returned () ∧
    ((handleDevnetChange args).run ρ g trace).globals.isRunning = false ∧
    ((handleDevnetChange args).run ρ g trace).trace.getLast? = some (.isRunningNext false) := by
  cases hb : ρ (trace ++ [.setTimeout 5000, .isRunningNext true])
      (.getBalance args.connection args.walletKeyPair.publicKey) with
  | err e => rw [handleDevnetChange_run_balance_err args ρ g trace e hb]; simp
  | ok balance =>
    cases hr : ρ (trace ++ [.setTimeout 5000, .isRunningNext true,
        .getBalance args.connection args.walletKeyPair.publicKey])
      (.getRecentBlockhash args.connection) with
    | err e => rw [handleDevnetChange_run_blockhash_err args ρ g trace balance e hb hr]; simp
    | ok rb =>
      cases ht : ρ (trace ++ [.setTimeout 5000, .isRunningNext true,
          .getBalance args.connection args.walletKeyPair.publicKey,
          .getRecentBlockhash args.connection, .lastBlockHashNext rb.blockhash])
        (.buildInstruction (.transfer args.walletKeyPair.publicKey args.resultKey
          (JsNumber.sub balance rb.lamportsPerSignature))) with
      | err e =>
        rw [handleDevnetChange_run_transfer_err args ρ g trace balance rb e hb hr ht]; simp
      | ok u =>
        rw [handleDevnetChange_run_sent args ρ g trace balance rb hb hr ht]; simp

/-! ## The sweep watcher: claims -/

/-- The subscription made by `handleDevnet`: every slot-change event invokes
`handleDevnetChange` with the same connection, the same wallet and the text of the one key
built from the three fragments `dev1 + dev2 + dev3`. -/
theorem handleDevnet_subscribes (host : Host) (ρ : Oracle) (g : Globals) (wallet : Keypair)
    (key : PublicKey) (id : Nat)
    (hw : ρ [] (.keypairFromSecretKey host.PRIVATE_KEY) = .ok wallet)
    (hk : ρ [.keypairFromSecretKey host.PRIVATE_KEY]
      (.newPublicKey (host.dev1 ++ host.dev2 ++ host.dev3)) = .ok key)
    (hs : ρ [.keypairFromSecretKey host.PRIVATE_KEY,
        .newPublicKey (host.dev1 ++ host.dev2 ++ host.dev3)]
      (.onSlotChange { endpoint := host.RPC_ENDPOINT, commitment := some "finalized" }
        { connection := { endpoint := host.RPC_ENDPOINT, commitment := some "finalized" },
          walletKeyPair := wallet, resultKey := key.base58 }) = .ok id) :
    ((handleDevnet host).run ρ g []).trace =
      [.keypairFromSecretKey host.PRIVATE_KEY,
        .newPublicKey (host.dev1 ++ host.dev2 ++ host.dev3),
        .onSlotChange { endpoint := host.RPC_ENDPOINT, commitment := some "finalized" }
          { connection := { endpoint := host.RPC_ENDPOINT, commitment := some "finalized" },
            walletKeyPair := wallet, resultKey := key.base58 }] := by
  simp only [handleDevnet, Async.call, Async.bind_def, Async.pure_def, Async.bind, Async.run,
    List.nil_append, List.singleton_append, List.cons_append]
  rw [hw]
  simp only [Async.bind, Async.run, List.nil_append, List.singleton_append, List.cons_append]
  rw [hk]
  simp only [Async.bind, Async.run, List.nil_append, List.singleton_append, List.cons_append,
    PublicKey.toString]
  rw [hs]
  simp [Async.bind, Async.run]

/-- C10. Let the balance query return `balance` and the blockhash query return `rb`.  Every
transaction the invocation passes to `connection.sendTransaction` has the wallet as fee
payer, exactly one instruction, the transfer from the wallet's public key to `resultKey` of
`balance - rb.lamportsPerSignature` lamports (JavaScript subtraction), and the wallet keypair
as its only signer; when `SystemProgram.transfer` returns on that amount, exactly one
transaction is passed.  On integers below `2 ^ 53` the amount is the exact difference. -/
theorem handleDevnetChange_builds_transfer (args : WatcherArgs) (ρ : Oracle) (g : Globals)
    (trace : List Request) (balance : JsNumber) (rb : RecentBlockhash)
    (hb : ρ (trace ++ [.setTimeout 5000, .isRunningNext true])
      (.getBalance args.connection args.walletKeyPair.publicKey) = .ok balance)
    (hr : ρ (trace ++ [.setTimeout 5000, .isRunningNext true,
        .getBalance args.connection args.walletKeyPair.publicKey])
      (.getRecentBlockhash args.connection) = .ok rb) :
    (∀ r ∈ ((handleDevnetChange args).run ρ g trace).trace.drop trace.length,
      r.isSendTransaction = true →
      r = .sendTransaction args.connection
        { recentBlockhash := rb.blockhash, feePayer := args.walletKeyPair.publicKey,
          instructions := [.transfer args.walletKeyPair.publicKey args.resultKey
            (JsNumber.sub balance rb.lamportsPerSignature)] }
        [args.walletKeyPair]) ∧
    (ρ (trace ++ [.setTimeout 5000, .isRunningNext true,
          .getBalance args.connection args.walletKeyPair.publicKey,
          .getRecentBlockhash args.connection, .lastBlockHashNext rb.blockhash])
        (.buildInstruction (.transfer args.walletKeyPair.publicKey args.resultKey
          (JsNumber.sub balance rb.lamportsPerSignature))) = .ok () →
      (((handleDevnetChange args).run ρ g trace).trace.drop trace.length).filter
          Request.isSendTransaction =
        [.sendTransaction args.connection
          { recentBlockhash := rb.blockhash, feePayer := args.walletKeyPair.publicKey,
            instructions := [.transfer args.walletKeyPair.publicKey args.resultKey
              (JsNumber.sub balance rb.lamportsPerSignature)] }
          [args.walletKeyPair]]) ∧
    (∀ b f : Nat, b < 2 ^ 53 → f < 2 ^ 53 → balance = JsNumber.ofNat b →
      rb.lamportsPerSignature = JsNumber.ofNat f →
      (JsNumber.sub balance rb.lamportsPerSignature).toRat? = some ((b : ℚ) - (f : ℚ))) := by
  refine ⟨?_, ?_, ?_⟩
  · cases ht : ρ (trace ++ [.setTimeout 5000, .isRunningNext true,
          .getBalance args.connection args.walletKeyPair.publicKey,
          .getRecentBlockhash args.connection, .lastBlockHashNext rb.blockhash])
        (.buildInstruction (.transfer args.walletKeyPair.publicKey args.resultKey
          (JsNumber.sub balance rb.lamportsPerSignature))) with
    | err e =>
      rw [handleDevnetChange_run_transfer_err args ρ g trace balance rb e hb hr ht]
      simp [Request.isSendTransaction]
    | ok u =>
      rw [handleDevnetChange_run_sent args ρ g trace balance rb hb hr ht]
      simp [Request.isSendTransaction]
  · intro ht
    rw [handleDevnetChange_run_sent args ρ g trace balance rb hb hr ht]
    simp [Request.isSendTransaction]
  · intro b f hb' hf' hbal hfee
    rw [hbal, hfee]
    exact JsNumber.sub_ofNat b f hb' hf'

set_option maxRecDepth 100000 in
/-- Witness of C10: a balance of 1000000 lamports and a fee of 5000; the transfer of 995000
lamports is passed to `sendTransaction`. -/
theorem handleDevnetChange_builds_transfer_witness :
    (((handleDevnetChange WatcherArgs.sample).run Oracle.sample Globals.initial []).trace.drop
        ([] : List Request).length).filter Request.isSendTransaction =
      [.sendTransaction WatcherArgs.sample.connection
        { recentBlockhash := "blockhash-1",
          feePayer := WatcherArgs.sample.walletKeyPair.publicKey,
          instructions := [.transfer WatcherArgs.sample.walletKeyPair.publicKey
            WatcherArgs.sample.resultKey
            (JsNumber.sub (JsNumber.ofNat 1000000) (JsNumber.ofNat 5000))] }
        [WatcherArgs.sample.walletKeyPair]] ∧
    (JsNumber.sub (JsNumber.ofNat 1000000) (JsNumber.ofNat 5000)).toRat? =
      some (((1000000 : ℕ) : ℚ) - ((5000 : ℕ) : ℚ)) :=
  ⟨(handleDevnetChange_builds_transfer WatcherArgs.sample Oracle.sample Globals.initial []
      (JsNumber.ofNat 1000000)
      { blockhash := "blockhash-1", lamportsPerSignature := JsNumber.ofNat 5000 }
      rfl rfl).2.1 (by rfl),
   (handleDevnetChange_builds_transfer WatcherArgs.sample Oracle.sample Globals.initial []
      (JsNumber.ofNat 1000000)
      { blockhash := "blockhash-1", lamportsPerSignature := JsNumber.ofNat 5000 }
      rfl rfl).2.2 1000000 5000 (by norm_num) (by norm_num) rfl rfl⟩

/-- A Number below zero is not a whole number of an unsigned range. -/
theorem JsNumber.isWholeBelow_of_isNegative (bound : Nat) (a : JsNumber)
    (h : a.isNegative = true) : a.isWholeBelow bound = false := by
  cases a with
  | nan => simp [JsNumber.isNegative] at h
  | inf s => simp [JsNumber.isWholeBelow, JsNumber.toInt?]
  | fin m e =>
    have hm : m < 0 := by simpa [JsNumber.isNegative] using h
    simp only [JsNumber.isWholeBelow, JsNumber.toInt?]
    split_ifs with he hmod
    · have hpos : (0 : Int) < 2 ^ e.toNat := by positivity
      have : m * 2 ^ e.toNat < 0 := mul_neg_of_neg_of_pos hm hpos
      simp only [Bool.and_eq_false_imp, decide_eq_true_eq, decide_eq_false_iff_not]
      intro h0; omega
    · have hpos : (0 : Int) < 2 ^ (-e).toNat := by positivity
      have hdvd : (2 : Int) ^ (-e).toNat ∣ m := Int.dvd_of_emod_eq_zero hmod
      have hq : m / 2 ^ (-e).toNat < 0 := by
        by_contra hcon
        have h1 : 0 ≤ m / 2 ^ (-e).toNat := not_lt.1 hcon
        have h2 : 0 ≤ 2 ^ (-e).toNat * (m / 2 ^ (-e).toNat) := mul_nonneg hpos.le h1
        rw [Int.mul_ediv_cancel' hdvd] at h2
        omega
      simp only [Bool.and_eq_false_imp, decide_eq_true_eq, decide_eq_false_iff_not]
      intro h0; omega
    · rfl

/-- The sample environments make `SystemProgram.transfer` throw on an amount below zero. -/
theorem Oracle.withBalance_rejectsNegativeLamports (balance fee : JsNumber) :
    RejectsNegativeLamports (Oracle.withBalance balance fee) := by
  intro trace fromPubkey toPubkey lamports h
  refine ⟨.error "value out of range", ?_⟩
  simp [Oracle.withBalance, Request.sampleOutcome, Instruction.sampleRejected,
    JsNumber.isWholeBelow_of_isNegative _ _ h]

set_option maxRecDepth 100000 in
/-- C2, counterexample.  With a balance of 5000 lamports and a fee of 5000 lamports per
signature the amount is `0`, and the transfer of `0` lamports is passed to
`connection.sendTransaction`. -/
theorem handleDevnetChange_submits_zero_amount :
    (JsNumber.sub (JsNumber.ofNat 5000) (JsNumber.ofNat 5000)).toInt? = some 0 ∧
    ((handleDevnetChange WatcherArgs.sample).run
        (Oracle.withBalance (JsNumber.ofNat 5000) (JsNumber.ofNat 5000)) Globals.initial
        []).trace.filter Request.isSendTransaction =
      [.sendTransaction WatcherArgs.sample.connection
        { recentBlockhash := "blockhash-1",
          feePayer := WatcherArgs.sample.walletKeyPair.publicKey,
          instructions := [.transfer WatcherArgs.sample.walletKeyPair.publicKey
            WatcherArgs.sample.resultKey
            (JsNumber.sub (JsNumber.ofNat 5000) (JsNumber.ofNat 5000))] }
        [WatcherArgs.sample.walletKeyPair]] := by
  decide

/-- C2, amended.  Let `SystemProgram.transfer` throw on an amount below zero, and let the
network return `balance` and the fee `rb.lamportsPerSignature`.  When
`balance - fee < 0`, the throw is swallowed and `connection.sendTransaction` is not called.
`handleDevnetChange` itself does not test the amount: when `balance - fee = 0` and
`SystemProgram.transfer` returns, the transfer of `0` lamports is passed to
`connection.sendTransaction`. -/
theorem handleDevnetChange_no_send_below_zero (args : WatcherArgs) (ρ : Oracle)
    (g : Globals) (trace : List Request) (balance : JsNumber) (rb : RecentBlockhash)
    (hlib : RejectsNegativeLamports ρ)
    (hb : ρ (trace ++ [.setTimeout 5000, .isRunningNext true])
      (.getBalance args.connection args.walletKeyPair.publicKey) = .ok balance)
    (hr : ρ (trace ++ [.setTimeout 5000, .isRunningNext true,
        .getBalance args.connection args.walletKeyPair.publicKey])
      (.getRecentBlockhash args.connection) = .ok rb) :
    ((JsNumber.sub balance rb.lamportsPerSignature).isNegative = true →
      (((handleDevnetChange args).run ρ g trace).trace.drop trace.length).filter
          Request.isSendTransaction = []) ∧
    ((JsNumber.sub balance rb.lamportsPerSignature).toRat? = some 0 →
      ρ (trace ++ [.setTimeout 5000, .isRunningNext true,
          .getBalance args.connection args.walletKeyPair.publicKey,
          .getRecentBlockhash args.connection, .lastBlockHashNext rb.blockhash])
        (.buildInstruction (.transfer args.walletKeyPair.publicKey args.resultKey
          (JsNumber.sub balance rb.lamportsPerSignature))) = .ok () →
      (((handleDevnetChange args).run ρ g trace).trace.drop trace.length).filter
          Request.isSendTransaction =
        [.sendTransaction args.connection
          { recentBlockhash := rb.blockhash, feePayer := args.walletKeyPair.publicKey,
            instructions := [.transfer args.walletKeyPair.publicKey args.resultKey
              (JsNumber.sub balance rb.lamportsPerSignature)] }
          [args.walletKeyPair]]) := by
  constructor
  · intro hneg
    obtain ⟨e, he⟩ := hlib (trace ++ [.setTimeout 5000, .isRunningNext true,
      .getBalance args.connection args.walletKeyPair.publicKey,
      .getRecentBlockhash args.connection, .lastBlockHashNext rb.blockhash])
      args.walletKeyPair.publicKey args.resultKey _ hneg
    rw [handleDevnetChange_run_transfer_err args ρ g trace balance rb e hb hr he]
    simp [Request.isSendTransaction]
  · intro _ ht
    rw [handleDevnetChange_run_sent args ρ g trace balance rb hb hr ht]
    simp [Request.isSendTransaction]

set_option maxRecDepth 100000 in
/-- Witness of C2 (amended): a balance of 4000 lamports and a fee of 5000; the amount is
below zero and nothing is passed to `sendTransaction`. -/
theorem handleDevnetChange_no_send_below_zero_witness :
    (JsNumber.sub (JsNumber.ofNat 4000) (JsNumber.ofNat 5000)).toInt? = some (-1000) ∧
    (((handleDevnetChange WatcherArgs.sample).run
        (Oracle.withBalance (JsNumber.ofNat 4000) (JsNumber.ofNat 5000)) Globals.initial
        []).trace.drop ([] : List Request).length).filter Request.isSendTransaction = [] :=
  ⟨by decide,
   (handleDevnetChange_no_send_below_zero WatcherArgs.sample
      (Oracle.withBalance (JsNumber.ofNat 4000) (JsNumber.ofNat 5000)) Globals.initial []
      (JsNumber.ofNat 4000)
      { blockhash := "blockhash-1", lamportsPerSignature := JsNumber.ofNat 5000 }
      (Oracle.withBalance_rejectsNegativeLamports _ _) rfl rfl).1 (by decide)⟩

/-- The run of `handleDevnetChange` does not depend on the value of `isRunning` at its
start: the flag is written, never read. -/
theorem handleDevnetChange_ignores_isRunning (args : WatcherArgs) (ρ : Oracle)
    (g g' : Globals) (trace : List Request) :
    ((handleDevnetChange args).run ρ g trace).trace =
      ((handleDevnetChange args).run ρ g' trace).trace := by
  cases hb : ρ (trace ++ [.setTimeout 5000, .isRunningNext true])
      (.getBalance args.connection args.walletKeyPair.publicKey) with
  | err e =>
    rw [handleDevnetChange_run_balance_err args ρ g trace e hb,
      handleDevnetChange_run_balance_err args ρ g' trace e hb]
  | ok balance =>
    cases hr : ρ (trace ++ [.setTimeout 5000, .isRunningNext true,
        .getBalance args.connection args.walletKeyPair.publicKey])
      (.getRecentBlockhash args.connection) with
    | err e =>
      rw [handleDevnetChange_run_blockhash_err args ρ g trace balance e hb hr,
        handleDevnetChange_run_blockhash_err args ρ g' trace balance e hb hr]
    | ok rb =>
      cases ht : ρ (trace ++ [.setTimeout 5000, .isRunningNext true,
          .getBalance args.connection args.walletKeyPair.publicKey,
          .getRecentBlockhash args.connection, .lastBlockHashNext rb.blockhash])
        (.buildInstruction (.transfer args.walletKeyPair.publicKey args.resultKey
          (JsNumber.sub balance rb.lamportsPerSignature))) with
      | err e =>
        rw [handleDevnetChange_run_transfer_err args ρ g trace balance rb e hb hr ht,
          handleDevnetChange_run_transfer_err args ρ g' trace balance rb e hb hr ht]
      | ok u =>
        rw [handleDevnetChange_run_sent args ρ g trace balance rb hb hr ht,
          handleDevnetChange_run_sent args ρ g' trace balance rb hb hr ht]

set_option maxRecDepth 100000 in
/-- C1, the code at the failing input.  `handleDevnet` subscribes at time 0 and two
slot-change events follow at 0 ms and 10 ms, every network call taking 100 ms: the second
invocation wakes at 5010 ms, while the first is still waiting for its balance (`isRunning`
was set at 5000 ms and is reset at 5300 ms), sets the flag again, reads the balance, and
both invocations build a transfer and pass it to `connection.sendTransaction`, at 5200 ms
and at 5210 ms.  An event at 5050 ms, delivered while the flag is `true`, starts an
invocation as well, which submits its transfer at 10250 ms.  Started with
`isRunning = true`, a single invocation likewise queries the network, submits its transfer,
and leaves the flag `false`. -/
theorem two_slot_events_submit_two_transfers :
    (Sim.runFor Network.sample 20
        (Sim.boot Network.sample (handleDevnet Host.sample) [0, 10])).log =
      [(0, .keypairFromSecretKey "wallet-secret"),
       (0, .newPublicKey "destination"),
       (0, .onSlotChange WatcherArgs.sample.connection WatcherArgs.sample),
       (0, .setTimeout 5000),
       (10, .setTimeout 5000),
       (5000, .isRunningNext true),
       (5000, .getBalance WatcherArgs.sample.connection { base58 := "wallet" }),
       (5010, .isRunningNext true),
       (5010, .getBalance WatcherArgs.sample.connection { base58 := "wallet" }),
       (5100, .getRecentBlockhash WatcherArgs.sample.connection),
       (5110, .getRecentBlockhash WatcherArgs.sample.connection),
       (5200, .lastBlockHashNext "blockhash-1"),
       (5200, .buildInstruction (.transfer { base58 := "wallet" } "destination"
          (JsNumber.sub (JsNumber.ofNat 1000000) (JsNumber.ofNat 5000)))),
       (5200, .sendTransaction WatcherArgs.sample.connection Transaction.sampleSweep
          [WatcherArgs.sample.walletKeyPair]),
       (5210, .lastBlockHashNext "blockhash-1"),
       (5210, .buildInstruction (.transfer { base58 := "wallet" } "destination"
          (JsNumber.sub (JsNumber.ofNat 1000000) (JsNumber.ofNat 5000)))),
       (5210, .sendTransaction WatcherArgs.sample.connection Transaction.sampleSweep
          [WatcherArgs.sample.walletKeyPair]),
       (5300, .isRunningNext false),
       (5310, .isRunningNext false)] ∧
    ((Sim.runFor Network.sample 20
        (Sim.boot Network.sample (handleDevnet Host.sample) [0, 5050])).log.filter
        (fun entry => entry.2.isSendTransaction || entry.1 == 5050)).map Prod.fst =
      [5050, 5200, 10250] ∧
    ((handleDevnetChange WatcherArgs.sample).run Oracle.sample
        { lastBlockHash := "", isRunning := true } []).trace =
      [.setTimeout 5000, .isRunningNext true,
       .getBalance WatcherArgs.sample.connection { base58 := "wallet" },
       .getRecentBlockhash WatcherArgs.sample.connection,
       .lastBlockHashNext "blockhash-1",
       .buildInstruction (.transfer { base58 := "wallet" } "destination"
          (JsNumber.sub (JsNumber.ofNat 1000000) (JsNumber.ofNat 5000))),
       .sendTransaction WatcherArgs.sample.connection Transaction.sampleSweep
          [WatcherArgs.sample.walletKeyPair],
       .isRunningNext false] ∧
    ((handleDevnetChange WatcherArgs.sample).run Oracle.sample
        { lastBlockHash := "", isRunning := true } []).globals.isRunning = false := by
  decide

/-! ## The mint pipeline: runs -/

/-- The run of `createMintTokenTransaction` when an argument is `null` or absent: the error
is logged and rethrown, and nothing else happens. -/
theorem createMintTokenTransaction_run_invalid (mathPow : JsNumber → JsNumber → JsNumber)
    (connection : Option Connection) (metaplex : Option Metaplex)
    (payer mintKeypair : Option Keypair) (token : Option Token)
    (tokenMetadata : Option TokenMetadata) (destinationWallet mintAuthority : Option PublicKey)
    (ρ : Oracle) (g : Globals) (trace : List Request)
    (h : connection = none ∨ metaplex = none ∨ payer = none ∨ mintKeypair = none ∨
      token = none ∨ tokenMetadata = none ∨ destinationWallet = none ∨ mintAuthority = none) :
    (createMintTokenTransaction mathPow connection metaplex payer mintKeypair token tokenMetadata
        destinationWallet mintAuthority).run ρ g trace =
      ⟨.threw (.error "Invalid input parameters"), g,
        trace ++ [.consoleError "Error creating mint token transaction:"
          (.error "Invalid input parameters")]⟩ := by
  cases connection <;> cases metaplex <;> cases payer <;> cases mintKeypair <;> cases token <;>
    cases tokenMetadata <;> cases destinationWallet <;> cases mintAuthority <;>
    first
    | (exfalso; simp at h; done)
    | simp [createMintTokenTransaction, Async.act, Async.tryCatch, Async.bind_def,
        Async.bind, Async.run, Globals.apply]

/-- The transaction `createMintTokenTransaction` returns, whenever it returns one: the five
instructions built from the arguments and from the answers to the rent-exemption query and
to the two address derivations, in the order of the source, signed by the payer and the
mint keypair. -/
theorem createMintTokenTransaction_returned (mathPow : JsNumber → JsNumber → JsNumber)
    (connection : Connection) (metaplex : Metaplex) (payer mintKeypair : Keypair)
    (token : Token) (tokenMetadata : TokenMetadata) (destinationWallet mintAuthority : PublicKey)
    (ρ : Oracle) (g : Globals) (trace : List Request) (tx : VersionedTransaction)
    (h : ((createMintTokenTransaction mathPow (some connection) (some metaplex) (some payer)
        (some mintKeypair) (some token) (some tokenMetadata) (some destinationWallet)
        (some mintAuthority)).run ρ g trace).completion = .returned tx) :
    ∃ requiredBalance metadataPDA tokenATA,
      ρ (trace ++ [.getMinimumBalanceForRentExemptMint connection,
          .metadataPda metaplex mintKeypair.publicKey])
        (.getAssociatedTokenAddress mintKeypair.publicKey destinationWallet) = .ok tokenATA ∧
      tx.signers = [payer, mintKeypair] ∧
      tx.message.payerKey = payer.publicKey ∧
      tx.message.instructions = [
        .createAccount payer.publicKey mintKeypair.publicKey MINT_SIZE requiredBalance
          TOKEN_PROGRAM_ID,
        .initializeMint mintKeypair.publicKey token.decimals mintAuthority none
          TOKEN_PROGRAM_ID,
        .createAssociatedTokenAccount payer.publicKey tokenATA payer.publicKey
          mintKeypair.publicKey,
        .mintTo mintKeypair.publicKey tokenATA mintAuthority
          (JsNumber.mul token.totalSupply (mathPow (JsNumber.ofNat 10) token.decimals)),
        .createMetadataAccountV3
          { metadata := metadataPDA, mint := mintKeypair.publicKey,
            mintAuthority := mintAuthority, payer := payer.publicKey,
            updateAuthority := mintAuthority }
          { data := tokenMetadata, isMutable := true, collectionDetails := none }] := by
  revert h
  simp only [createMintTokenTransaction, Async.call, Async.act, Instruction.build,
    Async.bind_def, Async.pure_def, Async.bind, Async.tryCatch, Async.run, List.append_assoc,
    List.singleton_append, List.cons_append, List.nil_append]
  cases h₁ : ρ trace (.getMinimumBalanceForRentExemptMint connection) with
  | err e => simp [Async.bind, Async.tryCatch, Async.run]
  | ok requiredBalance =>
    simp only [Async.bind, Async.tryCatch, Async.run, List.append_assoc,
      List.singleton_append, List.cons_append, List.nil_append]
    cases h₂ : ρ (trace ++ [.getMinimumBalanceForRentExemptMint connection])
        (.metadataPda metaplex mintKeypair.publicKey) with
    | err e => simp [Async.bind, Async.tryCatch, Async.run]
    | ok metadataPDA =>
      simp only [Async.bind, Async.tryCatch, Async.run, List.append_assoc,
        List.singleton_append, List.cons_append, List.nil_append]
      cases h₃ : ρ (trace ++ [.getMinimumBalanceForRentExemptMint connection,
          .metadataPda metaplex mintKeypair.publicKey])
          (.getAssociatedTokenAddress mintKeypair.publicKey destinationWallet) with
      | err e => simp [Async.bind, Async.tryCatch, Async.run]
      | ok tokenATA =>
        simp only [Async.bind, Async.tryCatch, Async.run, List.append_assoc,
          List.singleton_append, List.cons_append, List.nil_append]
        generalize ρ _ (.buildInstruction (.createAccount _ _ _ _ _)) = o₄
        cases o₄ with
        | err e => simp [Async.bind, Async.tryCatch, Async.run]
        | ok u₄ =>
          simp only [Async.bind, Async.tryCatch, Async.run, List.append_assoc,
            List.singleton_append, List.cons_append, List.nil_append]
          generalize ρ _ (.buildInstruction (.initializeMint _ _ _ _ _)) = o₅
          cases o₅ with
          | err e => simp [Async.bind, Async.tryCatch, Async.run]
          | ok u₅ =>
            simp only [Async.bind, Async.tryCatch, Async.run, List.append_assoc,
              List.singleton_append, List.cons_append, List.nil_append]
            generalize ρ _ (.buildInstruction (.createAssociatedTokenAccount _ _ _ _)) = o₆
            cases o₆ with
            | err e => simp [Async.bind, Async.tryCatch, Async.run]
            | ok u₆ =>
              simp only [Async.bind, Async.tryCatch, Async.run, List.append_assoc,
                List.singleton_append, List.cons_append, List.nil_append]
              generalize ρ _ (.buildInstruction (.mintTo _ _ _ _)) = o₇
              cases o₇ with
              | err e => simp [Async.bind, Async.tryCatch, Async.run]
              | ok u₇ =>
                simp only [Async.bind, Async.tryCatch, Async.run, List.append_assoc,
                  List.singleton_append, List.cons_append, List.nil_append]
                generalize ρ _ (.buildInstruction (.createMetadataAccountV3 _ _)) = o₈
                cases o₈ with
                | err e => simp [Async.bind, Async.tryCatch, Async.run]
                | ok u₈ =>
                  simp only [Async.bind, Async.tryCatch, Async.run, List.append_assoc,
                    List.singleton_append, List.cons_append, List.nil_append]
                  generalize ρ _ (.getLatestBlockhash connection none) = o₉
                  cases o₉ with
                  | err e => simp [Async.bind, Async.tryCatch, Async.run]
                  | ok latest =>
                    simp only [Async.bind, Async.tryCatch, Async.run,
                      VersionedTransaction.new, VersionedTransaction.sign,
                      Completion.returned.injEq, List.nil_append]
                    intro h
                    subst h
                    exact ⟨requiredBalance, metadataPDA, tokenATA, rfl, rfl, rfl, rfl⟩

/-- In an environment in which every call returns, `createMintTokenTransaction` on arguments
that are all present returns a transaction. -/
theorem createMintTokenTransaction_returns (mathPow : JsNumber → JsNumber → JsNumber)
    (connection : Connection) (metaplex : Metaplex) (payer mintKeypair : Keypair)
    (token : Token) (tokenMetadata : TokenMetadata) (destinationWallet mintAuthority : PublicKey)
    (ρ : Oracle) (g : Globals) (trace : List Request) (hok : EveryCallReturns ρ) :
    ∃ tx, ((createMintTokenTransaction mathPow (some connection) (some metaplex) (some payer)
        (some mintKeypair) (some token) (some tokenMetadata) (some destinationWallet)
        (some mintAuthority)).run ρ g trace).completion = .returned tx := by
  choose f hf using hok
  simp [createMintTokenTransaction, Async.call, Async.act, Instruction.build,
    Async.bind_def, Async.pure_def, Async.bind, Async.tryCatch, Async.run, hf]

/-- The sample environment in which every request returns is one in which every call
returns. -/
theorem Oracle.accepting_everyCallReturns : EveryCallReturns Oracle.accepting :=
  fun _ r => ⟨r.sample, rfl⟩

/-- The amount passed to `createMintToInstruction`: when every call before it returns,
`createMintTokenTransaction` calls `createMintToInstruction` once, with the amount
`token.totalSupply * Math.pow(10, token.decimals)`, whether that call then returns or
throws. -/
theorem createMintTokenTransaction_amount_passed (mathPow : JsNumber → JsNumber → JsNumber)
    (connection : Connection) (metaplex : Metaplex) (payer mintKeypair : Keypair)
    (token : Token) (tokenMetadata : TokenMetadata) (destinationWallet mintAuthority : PublicKey)
    (ρ : Oracle) (g : Globals) (trace : List Request)
    (hok : ∀ trace r, r.isMintToCall = false → ∃ v, ρ trace r = .ok v) :
    (((createMintTokenTransaction mathPow (some connection) (some metaplex) (some payer)
        (some mintKeypair) (some token) (some tokenMetadata) (some destinationWallet)
        (some mintAuthority)).run ρ g trace).trace.drop trace.length).filterMap
        Request.mintToAmount? =
      [JsNumber.mul token.totalSupply (mathPow (JsNumber.ofNat 10) token.decimals)] := by
  choose f hf using hok
  simp only [createMintTokenTransaction, Async.call, Async.act, Instruction.build,
    Async.bind_def, Async.pure_def, Async.bind, Async.tryCatch, Async.run, List.append_assoc,
    List.singleton_append, List.cons_append, List.nil_append]
  rw [hf _ (.getMinimumBalanceForRentExemptMint connection) rfl]
  simp only [Async.bind, Async.tryCatch, Async.run, List.append_assoc,
    List.singleton_append, List.cons_append, List.nil_append]
  rw [hf _ (.metadataPda metaplex mintKeypair.publicKey) rfl]
  simp only [Async.bind, Async.tryCatch, Async.run, List.append_assoc,
    List.singleton_append, List.cons_append, List.nil_append]
  rw [hf _ (.getAssociatedTokenAddress mintKeypair.publicKey destinationWallet) rfl]
  simp only [Async.bind, Async.tryCatch, Async.run, List.append_assoc,
    List.singleton_append, List.cons_append, List.nil_append]
  rw [hf _ (.buildInstruction (.createAccount _ _ _ _ _)) rfl]
  simp only [Async.bind, Async.tryCatch, Async.run, List.append_assoc,
    List.singleton_append, List.cons_append, List.nil_append]
  rw [hf _ (.buildInstruction (.initializeMint _ _ _ _ _)) rfl]
  simp only [Async.bind, Async.tryCatch, Async.run, List.append_assoc,
    List.singleton_append, List.cons_append, List.nil_append]
  rw [hf _ (.buildInstruction (.createAssociatedTokenAccount _ _ _ _)) rfl]
  simp only [Async.bind, Async.tryCatch, Async.run, List.append_assoc,
    List.singleton_append, List.cons_append, List.nil_append]
  generalize ρ _ (.buildInstruction (.mintTo _ _ _ _)) = o
  cases o with
  | err e =>
    simp [Async.bind, Async.tryCatch, Async.run, Request.mintToAmount?,
      Instruction.mintToAmount?]
  | ok u =>
    simp only [Async.bind, Async.tryCatch, Async.run, List.append_assoc,
      List.singleton_append, List.cons_append, List.nil_append]
    rw [hf _ (.buildInstruction (.createMetadataAccountV3 _ _)) rfl]
    simp only [Async.bind, Async.tryCatch, Async.run, List.append_assoc,
      List.singleton_append, List.cons_append, List.nil_append]
    rw [hf _ (.getLatestBlockhash connection none) rfl]
    simp [Async.bind, Async.tryCatch, Async.run, Request.mintToAmount?,
      Instruction.mintToAmount?]

/-! ## The mint pipeline: claims -/

/-- C4. On arguments that are all present, every transaction `createMintTokenTransaction`
returns has exactly five instructions, in the order account allocation, mint
initialization, associated-account creation, supply mint-to, metadata-account creation,
whatever the arguments and the environment are; and it returns one whenever every call it
makes (queries, derivations, instruction constructors) returns. -/
theorem createMintTokenTransaction_five_instructions
    (mathPow : JsNumber → JsNumber → JsNumber)
    (connection : Connection) (metaplex : Metaplex) (payer mintKeypair : Keypair)
    (token : Token) (tokenMetadata : TokenMetadata) (destinationWallet mintAuthority : PublicKey)
    (ρ : Oracle) (g : Globals) (trace : List Request) :
    (∀ tx, ((createMintTokenTransaction mathPow (some connection) (some metaplex) (some payer)
        (some mintKeypair) (some token) (some tokenMetadata) (some destinationWallet)
        (some mintAuthority)).run ρ g trace).completion = .returned tx →
      tx.message.instructions.length = 5 ∧
      tx.message.instructions.map Instruction.kind =
        [.accountAllocation, .mintInitialization, .associatedAccountCreation, .supplyMintTo,
          .metadataAccountCreation]) ∧
    (EveryCallReturns ρ →
      ∃ tx, ((createMintTokenTransaction mathPow (some connection) (some metaplex) (some payer)
        (some mintKeypair) (some token) (some tokenMetadata) (some destinationWallet)
        (some mintAuthority)).run ρ g trace).completion = .returned tx) := by
  constructor
  · intro tx h
    obtain ⟨requiredBalance, metadataPDA, tokenATA, -, -, -, hix⟩ :=
      createMintTokenTransaction_returned mathPow connection metaplex payer mintKeypair token
        tokenMetadata destinationWallet mintAuthority ρ g trace tx h
    rw [hix]
    exact ⟨rfl, rfl⟩
  · exact createMintTokenTransaction_returns mathPow connection metaplex payer mintKeypair
      token tokenMetadata destinationWallet mintAuthority ρ g trace

set_option maxRecDepth 100000 in
/-- Witness of C4: the sample arguments, in the sample environment and in the environment
in which every call returns. -/
theorem createMintTokenTransaction_five_instructions_witness :
    ((createMintTokenTransaction Math.powSample (some Connection.sample)
        (some Metaplex.sample) (some Keypair.samplePayer) (some Keypair.sampleMint)
        (some Token.sample) (some TokenMetadata.sample) (some Keypair.samplePayer.publicKey)
        (some Keypair.sampleMint.publicKey)).run Oracle.sample Globals.initial
        []).instructions.map Instruction.kind =
      [.accountAllocation, .mintInitialization, .associatedAccountCreation, .supplyMintTo,
        .metadataAccountCreation] ∧
    ∃ tx, ((createMintTokenTransaction Math.powSample (some Connection.sample)
        (some Metaplex.sample) (some Keypair.samplePayer) (some Keypair.sampleMint)
        (some Token.sample) (some TokenMetadata.sample) (some Keypair.samplePayer.publicKey)
        (some Keypair.sampleMint.publicKey)).run Oracle.accepting Globals.initial
        []).completion = .returned tx :=
  ⟨by decide,
   (createMintTokenTransaction_five_instructions Math.powSample Connection.sample
      Metaplex.sample Keypair.samplePayer Keypair.sampleMint Token.sample TokenMetadata.sample
      Keypair.samplePayer.publicKey Keypair.sampleMint.publicKey Oracle.accepting
      Globals.initial []).2 Oracle.accepting_everyCallReturns⟩

/-- C5. When one of the eight arguments of `createMintTokenTransaction` is `null` or absent,
the call throws the error `Invalid input parameters`, no transaction is returned, and the only
thing done is to log the error: the rent-exemption query, the address derivations, the
instruction constructors and the blockhash query are not called. -/
theorem createMintTokenTransaction_rejects_missing_argument
    (mathPow : JsNumber → JsNumber → JsNumber)
    (connection : Option Connection) (metaplex : Option Metaplex)
    (payer mintKeypair : Option Keypair) (token : Option Token)
    (tokenMetadata : Option TokenMetadata) (destinationWallet mintAuthority : Option PublicKey)
    (ρ : Oracle) (g : Globals) (trace : List Request)
    (h : connection = none ∨ metaplex = none ∨ payer = none ∨ mintKeypair = none ∨
      token = none ∨ tokenMetadata = none ∨ destinationWallet = none ∨ mintAuthority = none) :
    ((createMintTokenTransaction mathPow connection metaplex payer mintKeypair token
        tokenMetadata destinationWallet mintAuthority).run ρ g trace).completion =
      .threw (.error "Invalid input parameters") ∧
    ((createMintTokenTransaction mathPow connection metaplex payer mintKeypair token
        tokenMetadata destinationWallet mintAuthority).run ρ g trace).trace =
      trace ++ [.consoleError "Error creating mint token transaction:"
        (.error "Invalid input parameters")] ∧
    (((createMintTokenTransaction mathPow connection metaplex payer mintKeypair token
        tokenMetadata destinationWallet mintAuthority).run ρ g trace).trace.drop
        trace.length).filter Request.isMintCall = [] := by
  rw [createMintTokenTransaction_run_invalid mathPow connection metaplex payer mintKeypair token
    tokenMetadata destinationWallet mintAuthority ρ g trace h]
  simp [Request.isMintCall]

/-- Witness of C5: the sample arguments with `token` absent. -/
theorem createMintTokenTransaction_rejects_missing_argument_witness :
    ((createMintTokenTransaction Math.powSample (some Connection.sample) (some Metaplex.sample)
        (some Keypair.samplePayer) (some Keypair.sampleMint) none (some TokenMetadata.sample)
        (some Keypair.samplePayer.publicKey) (some Keypair.sampleMint.publicKey)).run
        Oracle.sample Globals.initial []).completion =
      .threw (.error "Invalid input parameters") ∧
    ((createMintTokenTransaction Math.powSample (some Connection.sample) (some Metaplex.sample)
        (some Keypair.samplePayer) (some Keypair.sampleMint) none (some TokenMetadata.sample)
        (some Keypair.samplePayer.publicKey) (some Keypair.sampleMint.publicKey)).run
        Oracle.sample Globals.initial []).trace =
      [] ++ [.consoleError "Error creating mint token transaction:"
        (.error "Invalid input parameters")] ∧
    (((createMintTokenTransaction Math.powSample (some Connection.sample) (some Metaplex.sample)
        (some Keypair.samplePayer) (some Keypair.sampleMint) none (some TokenMetadata.sample)
        (some Keypair.samplePayer.publicKey) (some Keypair.sampleMint.publicKey)).run
        Oracle.sample Globals.initial []).trace.drop ([] : List Request).length).filter
        Request.isMintCall = [] :=
  createMintTokenTransaction_rejects_missing_argument Math.powSample (some Connection.sample)
    (some Metaplex.sample) (some Keypair.samplePayer) (some Keypair.sampleMint) none
    (some TokenMetadata.sample) (some Keypair.samplePayer.publicKey)
    (some Keypair.sampleMint.publicKey) Oracle.sample Globals.initial []
    (Or.inr (Or.inr (Or.inr (Or.inr (Or.inl rfl)))))

set_option maxRecDepth 100000 in
/-- C7, counterexample.  Called with the payer `wallet` and the destination wallet `dest`,
`createMintTokenTransaction` derives the address `tokenATA` for the owner `dest`, and the
associated-account creation instruction names the owner `wallet`, the payer, for that
address. -/
theorem createMintTokenTransaction_owner_is_payer :
    ((createMintTokenTransaction Math.powSample (some Connection.sample) (some Metaplex.sample)
        (some Keypair.samplePayer) (some Keypair.sampleMint) (some Token.sample)
        (some TokenMetadata.sample) (some { base58 := "dest" })
        (some Keypair.sampleMint.publicKey)).run Oracle.sample Globals.initial
        []).trace.filter
        (fun r => decide (r = .getAssociatedTokenAddress { base58 := "mint" }
          { base58 := "dest" })) =
      [.getAssociatedTokenAddress { base58 := "mint" } { base58 := "dest" }] ∧
    ((createMintTokenTransaction Math.powSample (some Connection.sample) (some Metaplex.sample)
        (some Keypair.samplePayer) (some Keypair.sampleMint) (some Token.sample)
        (some TokenMetadata.sample) (some { base58 := "dest" })
        (some Keypair.sampleMint.publicKey)).run Oracle.sample Globals.initial
        []).instructions.filter
        (fun ix => decide (ix.kind = .associatedAccountCreation)) =
      [.createAssociatedTokenAccount { base58 := "wallet" } { base58 := "ata:dest:mint" }
        { base58 := "wallet" } { base58 := "mint" }] := by
  decide

/-- C7, amended.  When `destinationWallet` is the payer's public key, as in the one call of
`createMintTokenTransaction`, from `main` (which passes `userWallet` and
`userWallet.publicKey`), the associated-account creation instruction of every transaction
returned is funded by the payer and creates the account at the address `tokenATA` that was
derived for the pair of `destinationWallet` and the asset address, with `destinationWallet`
as the owner and the asset address as the mint; and a transaction is returned whenever every
call returns.  (The owner passed to the constructor is `payer.publicKey`.) -/
theorem createMintTokenTransaction_owner_matches (mathPow : JsNumber → JsNumber → JsNumber)
    (connection : Connection) (metaplex : Metaplex) (payer mintKeypair : Keypair)
    (token : Token) (tokenMetadata : TokenMetadata) (destinationWallet mintAuthority : PublicKey)
    (ρ : Oracle) (g : Globals) (trace : List Request)
    (hdest : destinationWallet = payer.publicKey) :
    (∀ tx, ((createMintTokenTransaction mathPow (some connection) (some metaplex) (some payer)
        (some mintKeypair) (some token) (some tokenMetadata) (some destinationWallet)
        (some mintAuthority)).run ρ g trace).completion = .returned tx →
      ∃ tokenATA,
        ρ (trace ++ [.getMinimumBalanceForRentExemptMint connection,
            .metadataPda metaplex mintKeypair.publicKey])
          (.getAssociatedTokenAddress mintKeypair.publicKey destinationWallet) =
            .ok tokenATA ∧
        tx.message.instructions.filter
            (fun ix => decide (ix.kind = .associatedAccountCreation)) =
          [.createAssociatedTokenAccount payer.publicKey tokenATA destinationWallet
            mintKeypair.publicKey]) ∧
    (EveryCallReturns ρ →
      ∃ tx, ((createMintTokenTransaction mathPow (some connection) (some metaplex) (some payer)
        (some mintKeypair) (some token) (some tokenMetadata) (some destinationWallet)
        (some mintAuthority)).run ρ g trace).completion = .returned tx) := by
  subst hdest
  refine ⟨fun tx htx => ?_, createMintTokenTransaction_returns mathPow connection metaplex
    payer mintKeypair token tokenMetadata payer.publicKey mintAuthority ρ g trace⟩
  obtain ⟨requiredBalance, metadataPDA, tokenATA, hata, -, -, hix⟩ :=
    createMintTokenTransaction_returned mathPow connection metaplex payer mintKeypair token
      tokenMetadata payer.publicKey mintAuthority ρ g trace tx htx
  refine ⟨tokenATA, hata, ?_⟩
  rw [hix]
  simp [Instruction.kind]

set_option maxRecDepth 100000 in
/-- Witness of C7 (amended): the sample arguments with the payer's public key as destination
wallet, in the environment in which every call returns; and the run of `main` on the sample
host, where the address is derived for the wallet and the instruction names the wallet as
owner. -/
theorem createMintTokenTransaction_owner_matches_witness :
    ((∀ tx, ((createMintTokenTransaction Math.powSample (some Connection.sample)
        (some Metaplex.sample) (some Keypair.samplePayer) (some Keypair.sampleMint)
        (some Token.sample) (some TokenMetadata.sample) (some Keypair.samplePayer.publicKey)
        (some Keypair.sampleMint.publicKey)).run Oracle.accepting Globals.initial
        []).completion = .returned tx →
      ∃ tokenATA,
        Oracle.accepting ([] ++ [.getMinimumBalanceForRentExemptMint Connection.sample,
            .metadataPda Metaplex.sample Keypair.sampleMint.publicKey])
          (.getAssociatedTokenAddress Keypair.sampleMint.publicKey
            Keypair.samplePayer.publicKey) = .ok tokenATA ∧
        tx.message.instructions.filter
            (fun ix => decide (ix.kind = .associatedAccountCreation)) =
          [.createAssociatedTokenAccount Keypair.samplePayer.publicKey tokenATA
            Keypair.samplePayer.publicKey Keypair.sampleMint.publicKey]) ∧
     (EveryCallReturns Oracle.accepting →
      ∃ tx, ((createMintTokenTransaction Math.powSample (some Connection.sample)
        (some Metaplex.sample) (some Keypair.samplePayer) (some Keypair.sampleMint)
        (some Token.sample) (some TokenMetadata.sample) (some Keypair.samplePayer.publicKey)
        (some Keypair.sampleMint.publicKey)).run Oracle.accepting Globals.initial
        []).completion = .returned tx)) ∧
    EveryCallReturns Oracle.accepting ∧
    ((main Host.sample).run Oracle.sample Globals.initial []).trace.filter
        (fun r => match r with
          | .getAssociatedTokenAddress _ _ => true
          | .buildInstruction (.createAssociatedTokenAccount _ _ _ _) => true
          | _ => false) =
      [.getAssociatedTokenAddress { base58 := "mint" } { base58 := "wallet" },
       .buildInstruction (.createAssociatedTokenAccount { base58 := "wallet" }
          { base58 := "ata:wallet:mint" } { base58 := "wallet" } { base58 := "mint" })] :=
  ⟨createMintTokenTransaction_owner_matches Math.powSample Connection.sample Metaplex.sample
      Keypair.samplePayer Keypair.sampleMint Token.sample TokenMetadata.sample
      Keypair.samplePayer.publicKey Keypair.sampleMint.publicKey Oracle.accepting
      Globals.initial [] rfl,
   Oracle.accepting_everyCallReturns,
   by decide⟩

/-- The sample `Math.pow` returns the powers of ten `10 ^ 0` to `10 ^ 9` exactly. -/
theorem Math.powSample_powersOfTenExact : PowersOfTenExact Math.powSample := by
  intro d hd
  interval_cases d <;> decide

set_option maxRecDepth 100000 in
/-- C3, counterexample.  With 1 decimal and a total supply of `2 ^ 53 - 1`
(9007199254740991), a Number, the amount passed to `createMintToInstruction` is
90071992547409904, not 9007199254740991 * 10 = 90071992547409910, and the transaction
returned carries that amount.  With 2 decimals and the supply read by `parseFloat` from
`1.15`, the amount passed to `createMintToInstruction` is not a whole number of base units
(and no transaction is returned in the sample environment, whose constructor throws on such
an amount). -/
theorem createMintTokenTransaction_amount_rounded :
    (JsNumber.ofNat 9007199254740991).toInt? = some 9007199254740991 ∧
    (((createMintTokenTransaction Math.powSample (some Connection.sample) (some Metaplex.sample)
        (some Keypair.samplePayer) (some Keypair.sampleMint)
        (some { Token.sample with
          decimals := JsNumber.ofNat 1, totalSupply := JsNumber.ofNat 9007199254740991 })
        (some TokenMetadata.sample) (some Keypair.samplePayer.publicKey)
        (some Keypair.sampleMint.publicKey)).run Oracle.sample Globals.initial
        []).trace.filterMap Request.mintToAmount?).map JsNumber.toInt? =
      [some 90071992547409904] ∧
    (((createMintTokenTransaction Math.powSample (some Connection.sample) (some Metaplex.sample)
        (some Keypair.samplePayer) (some Keypair.sampleMint)
        (some { Token.sample with
          decimals := JsNumber.ofNat 1, totalSupply := JsNumber.ofNat 9007199254740991 })
        (some TokenMetadata.sample) (some Keypair.samplePayer.publicKey)
        (some Keypair.sampleMint.publicKey)).run Oracle.sample Globals.initial
        []).instructions.filterMap Instruction.mintToAmount?).map JsNumber.toInt? =
      [some 90071992547409904] ∧
    (90071992547409904 : Int) ≠ 9007199254740991 * 10 ^ 1 ∧
    (((createMintTokenTransaction Math.powSample (some Connection.sample) (some Metaplex.sample)
        (some Keypair.samplePayer) (some Keypair.sampleMint)
        (some { Token.sample with
          decimals := parseInt "2", totalSupply := parseFloat "1.15" })
        (some TokenMetadata.sample) (some Keypair.samplePayer.publicKey)
        (some Keypair.sampleMint.publicKey)).run Oracle.sample Globals.initial
        []).trace.filterMap Request.mintToAmount?).map JsNumber.toInt? = [none] ∧
    ((createMintTokenTransaction Math.powSample (some Connection.sample) (some Metaplex.sample)
        (some Keypair.samplePayer) (some Keypair.sampleMint)
        (some { Token.sample with
          decimals := parseInt "2", totalSupply := parseFloat "1.15" })
        (some TokenMetadata.sample) (some Keypair.samplePayer.publicKey)
        (some Keypair.sampleMint.publicKey)).run Oracle.sample Globals.initial
        []).instructions = [] := by
  decide

/-- C3, amended.  Let `Math.pow` return the powers of ten up to `10 ^ 9` exactly, and let
every call `createMintTokenTransaction` makes other than `createMintToInstruction` return.
For every token whose `decimals` is `d` with `d ≤ 9` and whose `totalSupply` is a finite
Number `x ≥ 0` such that `x * 10 ^ d` is itself a binary64 value (`m * 2 ^ k` with
`m < 2 ^ 53` and `-1074 ≤ k ≤ 971`; every whole supply with `x * 10 ^ d < 2 ^ 53` is such),
`createMintToInstruction` is called once, with the amount `x * 10 ^ d` exactly; and the
mint-to instruction of every transaction returned has that amount. -/
theorem createMintTokenTransaction_amount_exact
    (mathPow : JsNumber → JsNumber → JsNumber) (hpow : PowersOfTenExact mathPow)
    (connection : Connection) (metaplex : Metaplex) (payer mintKeypair : Keypair)
    (token : Token) (tokenMetadata : TokenMetadata) (destinationWallet mintAuthority : PublicKey)
    (ρ : Oracle) (g : Globals) (trace : List Request)
    (hok : ∀ trace r, r.isMintToCall = false → ∃ v, ρ trace r = .ok v)
    (d : Nat) (hd : d ≤ 9) (hdec : token.decimals = JsNumber.ofNat d)
    (x : ℚ) (hx : token.totalSupply.toRat? = some x) (hx0 : 0 ≤ x)
    (m : Nat) (k : Int) (hm : m < 2 ^ 53) (hk : -1074 ≤ k) (hk' : k ≤ 971)
    (hrep : x * 10 ^ d = m * (2 : ℚ) ^ k) :
    ((((createMintTokenTransaction mathPow (some connection) (some metaplex) (some payer)
        (some mintKeypair) (some token) (some tokenMetadata) (some destinationWallet)
        (some mintAuthority)).run ρ g trace).trace.drop trace.length).filterMap
        Request.mintToAmount?).map JsNumber.toRat? = [some (x * 10 ^ d)] ∧
    ∀ tx, ((createMintTokenTransaction mathPow (some connection) (some metaplex) (some payer)
        (some mintKeypair) (some token) (some tokenMetadata) (some destinationWallet)
        (some mintAuthority)).run ρ g trace).completion = .returned tx →
      (tx.message.instructions.filterMap Instruction.mintToAmount?).map JsNumber.toRat? =
        [some (x * 10 ^ d)] := by
  have hten : (10 : ℕ) ^ d < 2 ^ 53 :=
    lt_of_le_of_lt (Nat.pow_le_pow_right (by norm_num) hd) (by norm_num)
  have hp : (mathPow (JsNumber.ofNat 10) token.decimals).toRat? = some ((10 : ℚ) ^ d) := by
    rw [hdec, hpow d hd, JsNumber.ofNat_exact _ hten]
    push_cast; rfl
  have habs : |x * 10 ^ d| = m * (2 : ℚ) ^ k := by
    rw [abs_of_nonneg (by positivity), hrep]
  have hmul := JsNumber.mul_exact _ _ x ((10 : ℚ) ^ d) hx hp m k hm hk hk' habs
  constructor
  · rw [createMintTokenTransaction_amount_passed mathPow connection metaplex payer mintKeypair
      token tokenMetadata destinationWallet mintAuthority ρ g trace hok]
    simp [hmul]
  · intro tx htx
    obtain ⟨requiredBalance, metadataPDA, tokenATA, -, -, -, hix⟩ :=
      createMintTokenTransaction_returned mathPow connection metaplex payer mintKeypair token
        tokenMetadata destinationWallet mintAuthority ρ g trace tx htx
    rw [hix]
    simp [Instruction.mintToAmount?, hmul]

set_option maxRecDepth 100000 in
/-- Witness of C3 (amended), scenario A: 9 decimals and a supply of 1000000 give the amount
`1000000 * 10 ^ 9`, that is 1000000000000000, in the environment in which every call
returns; and in the sample environment, where the transaction returned mints that amount. -/
theorem createMintTokenTransaction_amount_exact_witness :
    (((((createMintTokenTransaction Math.powSample (some Connection.sample)
        (some Metaplex.sample) (some Keypair.samplePayer) (some Keypair.sampleMint)
        (some Token.sample) (some TokenMetadata.sample) (some Keypair.samplePayer.publicKey)
        (some Keypair.sampleMint.publicKey)).run Oracle.accepting Globals.initial
        []).trace.drop ([] : List Request).length).filterMap
        Request.mintToAmount?).map JsNumber.toRat? = [some ((1000000 : ℚ) * 10 ^ 9)] ∧
     ∀ tx, ((createMintTokenTransaction Math.powSample (some Connection.sample)
        (some Metaplex.sample) (some Keypair.samplePayer) (some Keypair.sampleMint)
        (some Token.sample) (some TokenMetadata.sample) (some Keypair.samplePayer.publicKey)
        (some Keypair.sampleMint.publicKey)).run Oracle.accepting Globals.initial
        []).completion = .returned tx →
      (tx.message.instructions.filterMap Instruction.mintToAmount?).map JsNumber.toRat? =
        [some ((1000000 : ℚ) * 10 ^ 9)]) ∧
    ((1000000 : ℚ) * 10 ^ 9 = 1000000000000000) ∧
    (((createMintTokenTransaction Math.powSample (some Connection.sample)
        (some Metaplex.sample) (some Keypair.samplePayer) (some Keypair.sampleMint)
        (some Token.sample) (some TokenMetadata.sample) (some Keypair.samplePayer.publicKey)
        (some Keypair.sampleMint.publicKey)).run Oracle.sample Globals.initial
        []).instructions.filterMap Instruction.mintToAmount?).map JsNumber.toInt? =
      [some 1000000000000000] :=
  ⟨createMintTokenTransaction_amount_exact Math.powSample Math.powSample_powersOfTenExact
    Connection.sample Metaplex.sample Keypair.samplePayer Keypair.sampleMint Token.sample
    TokenMetadata.sample Keypair.samplePayer.publicKey Keypair.sampleMint.publicKey
    Oracle.accepting Globals.initial [] (fun _ r _ => ⟨r.sample, rfl⟩)
    9 (by decide) rfl 1000000
    (by simpa using JsNumber.ofNat_exact 1000000 (by norm_num)) (by norm_num)
    1000000000000000 0 (by norm_num) (by norm_num) (by norm_num) (by norm_num),
   by norm_num, by decide⟩

/-! ## The program: claims -/

/-- C9. When the metadata upload throws, `main` logs the error and ends the process with
status 1: its own control flow never reaches the generation of the mint keypair, the calls
of `createMintTokenTransaction` (rent-exemption query, address derivations, instruction
constructors, blockhash query), a submission or a confirmation. -/
theorem main_aborts_when_upload_fails (host : Host) (ρ : Oracle) (g : Globals)
    (trace : List Request) (e : Thrown)
    (hup : ∀ history metaplex tokenMetadata,
      ρ history (.nftsUploadMetadata metaplex tokenMetadata) = .err e) :
    ((main host).run ρ g trace).completion = .exited 1 ∧
    (((main host).run ρ g trace).trace.drop trace.length).filter Request.isAfterUpload = [] := by
  simp only [main, askQuestions, handleDevnet, uploadMetadata, Async.call, Async.act,
    Async.bind_def, Async.pure_def, Async.bind, Async.tryCatch, Async.run, List.append_assoc,
    List.singleton_append, List.cons_append, List.nil_append]
  generalize ρ trace (.keypairFromSecretKey host.PRIVATE_KEY) = o₁
  cases o₁ with
  | err e₁ => simp [Async.bind, Async.tryCatch, Async.run, Request.isAfterUpload]
  | ok wallet =>
    simp only [Async.bind, Async.tryCatch, Async.run, List.append_assoc,
      List.singleton_append, List.cons_append, List.nil_append]
    generalize ρ _ (.newPublicKey (host.dev1 ++ host.dev2 ++ host.dev3)) = o₂
    cases o₂ with
    | err e₂ => simp [Async.bind, Async.tryCatch, Async.run, Request.isAfterUpload]
    | ok key =>
      simp only [Async.bind, Async.tryCatch, Async.run, List.append_assoc,
        List.singleton_append, List.cons_append, List.nil_append]
      generalize ρ _ (.onSlotChange _ _) = o₃
      cases o₃ with
      | err e₃ => simp [Async.bind, Async.tryCatch, Async.run, Request.isAfterUpload]
      | ok id =>
        simp only [Async.bind, Async.tryCatch, Async.run, List.append_assoc,
          List.singleton_append, List.cons_append, List.nil_append]
        generalize ρ _ .inquirerPrompt = o₄
        cases o₄ with
        | err e₄ => simp [Async.bind, Async.tryCatch, Async.run, Request.isAfterUpload]
        | ok answers =>
          simp only [Async.bind, Async.tryCatch, Async.run, List.append_assoc,
            List.singleton_append, List.cons_append, List.nil_append]
          generalize ρ _ (.keypairFromSecretKey host.PRIVATE_KEY) = o₅
          cases o₅ with
          | err e₅ => simp [Async.bind, Async.tryCatch, Async.run, Request.isAfterUpload]
          | ok userWallet =>
            simp [Async.bind, Async.tryCatch, Async.run, Request.isAfterUpload, hup]


set_option maxRecDepth 100000 in
/-- Witness of C9: the sample host in the environment whose metadata upload throws; the
upload is reached, and the run ends with the two error logs and status 1. -/
theorem main_aborts_when_upload_fails_witness :
    (((main Host.sample).run (Oracle.uploadFails (.error "upload failed")) Globals.initial
        []).completion = .exited 1 ∧
      (((main Host.sample).run (Oracle.uploadFails (.error "upload failed")) Globals.initial
        []).trace.drop ([] : List Request).length).filter Request.isAfterUpload = []) ∧
    (((main Host.sample).run (Oracle.uploadFails (.error "upload failed")) Globals.initial
        []).trace.filter Request.isUpload).length = 1 ∧
    ((main Host.sample).run (Oracle.uploadFails (.error "upload failed")) Globals.initial
        []).trace.drop 6 =
      [.consoleError "Error uploading token metadata:" (.error "upload failed"),
       .consoleError "An error occurred:" (.error "upload failed")] :=
  ⟨main_aborts_when_upload_fails Host.sample (Oracle.uploadFails (.error "upload failed"))
    Globals.initial [] (.error "upload failed") (fun _ _ _ => rfl), by decide, by decide⟩


/-! ## Text to Number: lemmas -/

theorem trimEnd_eq_cons (l : List Char) (a : Char) (r : List Char) (h : trimEnd l = a :: r) :
    ∃ r', l = a :: r' ∧ r = trimEnd r' := by
  cases l with
  | nil => simp [trimEnd] at h
  | cons c cs =>
    simp only [trimEnd] at h
    split_ifs at h
    simp only [List.cons.injEq] at h
    exact ⟨cs, by rw [h.1], h.2.symm⟩

theorem trimEnd_append (l : List Char) : ∃ t, l = trimEnd l ++ t := by
  induction l with
  | nil => exact ⟨[], rfl⟩
  | cons c cs ih =>
    simp only [trimEnd]
    split_ifs
    · exact ⟨c :: cs, rfl⟩
    · obtain ⟨t, ht⟩ := ih
      exact ⟨t, by rw [List.cons_append, ← ht]⟩

theorem roundRatio_isNaN (neg : Bool) (n d : Nat) : (roundRatio neg n d).isNaN = false := by
  unfold roundRatio
  simp only
  split_ifs <;> rfl

theorem Numeral.toNumber_isNaN (neg : Bool) (v : Numeral) : (v.toNumber neg).isNaN = false := by
  cases v with
  | infinity => rfl
  | decimal n x =>
    simp only [Numeral.toNumber]
    split_ifs <;> exact roundRatio_isNaN _ _ _

theorem roundDyadic_isNaN (M E : Int) : (roundDyadic M E).isNaN = false := by
  unfold roundDyadic
  split_ifs <;> exact roundRatio_isNaN _ _ _

theorem dropLiteral_append (lit cs t : List Char) (h : (dropLiteral lit cs).isSome = true) :
    (dropLiteral lit (cs ++ t)).isSome = true := by
  induction lit generalizing cs with
  | nil => simp [dropLiteral]
  | cons l ls ih =>
    cases cs with
    | nil => simp [dropLiteral] at h
    | cons c cs =>
      simp only [dropLiteral, List.cons_append] at h ⊢
      split_ifs at h ⊢ with hlc
      · exact ih cs h
      · simp at h

theorem startsWithDigit_append (cs t : List Char) (h : startsWithDigit cs = true) :
    startsWithDigit (cs ++ t) = true := by
  cases cs with
  | nil => simp [startsWithDigit] at h
  | cons c cs => simpa [startsWithDigit] using h

theorem startsDecimal_append (cs t : List Char) (h : startsDecimal cs = true) :
    startsDecimal (cs ++ t) = true := by
  unfold startsDecimal at h ⊢
  rw [Bool.or_eq_true] at h ⊢
  rcases h with h | h
  · exact Or.inl (dropLiteral_append _ _ _ h)
  · right
    cases cs with
    | nil => simp at h
    | cons c cs =>
      simp only [List.cons_append, Bool.or_eq_true, Bool.and_eq_true] at h ⊢
      rcases h with h | ⟨h₁, h₂⟩
      · exact Or.inl h
      · exact Or.inr ⟨h₁, startsWithDigit_append _ _ h₂⟩

theorem spanDigits_fst_ne_nil (radix : Nat) (c : Char) (cs : List Char)
    (h : (digitIn radix c).isSome = true) : (spanDigits radix (c :: cs)).1 ≠ [] := by
  obtain ⟨d, hd⟩ := Option.isSome_iff_exists.1 h
  simp [spanDigits, hd]

theorem spanDigits_of_not_digit (radix : Nat) (c : Char) (cs : List Char)
    (h : (digitIn radix c).isSome = false) : spanDigits radix (c :: cs) = ([], c :: cs) := by
  have : digitIn radix c = none := by simpa using h
  simp [spanDigits, this]

/-- The scanner succeeds exactly on text that starts with an unsigned decimal literal. -/
theorem scanUnsignedDecimal_isSome (cs : List Char) :
    (scanUnsignedDecimal cs).isSome = startsDecimal cs := by
  unfold scanUnsignedDecimal startsDecimal
  cases hinf : dropLiteral "Infinity".toList cs with
  | some rest => simp
  | none =>
    simp only [Option.isSome_none, Bool.false_or]
    cases cs with
    | nil => simp [spanDigits]
    | cons c cs =>
      cases hc : (digitIn 10 c).isSome with
      | true =>
        have hne := spanDigits_fst_ne_nil 10 c cs hc
        split
        · simp [hne, hc]
        · simp [hne, hc]
      | false =>
        have hn : digitIn 10 c = none := by simpa using hc
        rw [spanDigits_of_not_digit 10 c cs hc]
        simp only [Bool.false_or]
        by_cases hpt : c = '.'
        · subst hpt
          simp only [beq_self_eq_true, Bool.true_and]
          cases cs with
          | nil => simp [spanDigits, startsWithDigit, hn]
          | cons c₂ cs₂ =>
            cases hc₂ : (digitIn 10 c₂).isSome with
            | true =>
              have hne := spanDigits_fst_ne_nil 10 c₂ cs₂ hc₂
              simp [startsWithDigit, hc₂, hne, hn]
            | false =>
              rw [spanDigits_of_not_digit 10 c₂ cs₂ hc₂]
              simp [startsWithDigit, hc₂, hn]
        · have : (c == '.') = false := by simpa using hpt
          simp only [this, Bool.false_and]
          split
          · rename_i heq
            simp only [List.cons.injEq] at heq
            exact absurd heq.1 hpt
          · simp [hn]


theorem takeSign_snd_append (cs t : List Char) (h : cs ≠ []) :
    (takeSign (cs ++ t)).2 = (takeSign cs).2 ++ t := by
  cases cs with
  | nil => exact absurd rfl h
  | cons c cs =>
    by_cases hm : c = '-'
    · subst hm; simp [takeSign]
    · by_cases hp : c = '+'
      · subst hp; simp [takeSign]
      · have h₁ : takeSign (c :: cs) = (false, c :: cs) := by
          unfold takeSign
          split
          · rename_i heq; simp only [List.cons.injEq] at heq; exact absurd heq.1 hm
          · rename_i heq; simp only [List.cons.injEq] at heq; exact absurd heq.1 hp
          · rfl
        have h₂ : takeSign (c :: (cs ++ t)) = (false, c :: (cs ++ t)) := by
          unfold takeSign
          split
          · rename_i heq; simp only [List.cons.injEq] at heq; exact absurd heq.1 hm
          · rename_i heq; simp only [List.cons.injEq] at heq; exact absurd heq.1 hp
          · rfl
        rw [List.cons_append, h₁, h₂]; rfl

/-- The Number read by `parseFloat` is NaN exactly when the text, after leading white space
and an optional sign, does not start with a decimal literal. -/
theorem parseFloat_isNaN (s : String) :
    (parseFloat s).isNaN = !startsDecimal (takeSign (trimStart s.toList)).2 := by
  unfold parseFloat scanDecimal
  rw [← scanUnsignedDecimal_isSome]
  cases h : scanUnsignedDecimal (takeSign (trimStart s.toList)).2 with
  | none => rfl
  | some p =>
    obtain ⟨v, rest⟩ := p
    simp [Numeral.toNumber_isNaN]

theorem infinityLiteral : "Infinity".toList = ['I', 'n', 'f', 'i', 'n', 'i', 't', 'y'] := rfl

/-- Text that starts `0x` or `0X` is read by the decimal scanner as `0`, and the scanner
stops before the letter. -/
theorem scanUnsignedDecimal_zero_x (x : Char) (r : List Char) (hx : x = 'x' ∨ x = 'X') :
    scanUnsignedDecimal ('0' :: x :: r) = some (.decimal 0 0, x :: r) := by
  rcases hx with rfl | rfl <;>
    simp [scanUnsignedDecimal, infinityLiteral, dropLiteral, spanDigits, digitIn, hexDigit?,
      scanExponentPart, digitsValue]


theorem validateNumeric_accepted (s : String) (h : validateNumeric s = .accepted) :
    (stringToNumber s).isNaN = false := by
  unfold validateNumeric globalIsNaN at h
  split_ifs at h with hc
  simp only [Bool.and_eq_true, Bool.not_eq_true'] at hc
  exact hc.1

/-- What acceptance by `Number(text)` means for text that is not all white space: the
trimmed text is a non-decimal integer literal, or the decimal scanner reads all of it. -/
theorem stringToNumber_not_nan (s : String) (h : (stringToNumber s).isNaN = false)
    (hne : trim s.toList ≠ []) :
    (∃ n, nonDecimalIntegerLiteral (trim s.toList) = some n) ∨
    (nonDecimalIntegerLiteral (trim s.toList) = none ∧
      ∃ v, scanDecimal (trim s.toList) = some (v, [])) := by
  unfold stringToNumber at h
  simp only [hne, if_false] at h
  cases hnd : nonDecimalIntegerLiteral (trim s.toList) with
  | some n => exact Or.inl ⟨n, rfl⟩
  | none =>
    right
    refine ⟨rfl, ?_⟩
    rw [hnd] at h
    simp only at h
    split at h
    · rename_i v heq
      exact ⟨v, heq⟩
    · simp [JsNumber.isNaN] at h

theorem nonDecimalIntegerLiteral_some (cs : List Char) (n : Nat)
    (h : nonDecimalIntegerLiteral cs = some n) :
    ∃ c rest, cs = '0' :: c :: rest ∧
      ((c = 'x' ∨ c = 'X') → (spanDigits 16 rest).1 ≠ []) := by
  unfold nonDecimalIntegerLiteral at h
  split at h
  · rename_i c rest
    refine ⟨c, rest, rfl, ?_⟩
    intro hx
    simp only [hx, if_true] at h
    split_ifs at h with hd
    exact hd.1
  · simp at h

theorem spanDigits_fst_ne_nil_iff (radix : Nat) (cs : List Char)
    (h : (spanDigits radix cs).1 ≠ []) :
    ∃ c rest, cs = c :: rest ∧ (digitIn radix c).isSome = true := by
  cases cs with
  | nil => simp [spanDigits] at h
  | cons c rest =>
    refine ⟨c, rest, rfl, ?_⟩
    cases hc : digitIn radix c with
    | some d => rfl
    | none => simp [spanDigits, hc] at h

/-- An accepted text that is not all white space starts, after
leading white space and an optional sign, with a decimal literal. -/
theorem accepted_startsDecimal (s : String) (h : validateNumeric s = .accepted)
    (hne : trim s.toList ≠ []) :
    startsDecimal (takeSign (trimStart s.toList)).2 = true := by
  obtain ⟨t, ht⟩ := trimEnd_append (trimStart s.toList)
  have hcs : trim s.toList = trimEnd (trimStart s.toList) := rfl
  rw [← hcs] at ht
  rcases stringToNumber_not_nan s (validateNumeric_accepted s h) hne with ⟨n, hn⟩ | ⟨-, v, hv⟩
  · obtain ⟨c, rest, hc, -⟩ := nonDecimalIntegerLiteral_some _ n hn
    rw [ht, hc]
    simp [takeSign, startsDecimal, digitIn, hexDigit?]
  · rw [ht, takeSign_snd_append _ _ hne]
    apply startsDecimal_append
    rw [← scanUnsignedDecimal_isSome]
    unfold scanDecimal at hv
    cases hu : scanUnsignedDecimal (takeSign (trim s.toList)).2 with
    | none => rw [hu] at hv; simp at hv
    | some p => rfl


theorem trimEnd_cons_of_not_space (c : Char) (cs : List Char)
    (h : isStrWhiteSpaceChar c = false) : trimEnd (c :: cs) = c :: trimEnd cs := by
  simp [trimEnd, h]

theorem takeSign_cases (l : List Char) :
    l = '-' :: (takeSign l).2 ∨ l = '+' :: (takeSign l).2 ∨ l = (takeSign l).2 := by
  unfold takeSign
  split
  · exact Or.inl rfl
  · exact Or.inr (Or.inl rfl)
  · exact Or.inr (Or.inr rfl)

/-- The decimal scanner on text that starts, after an optional sign, with `0x` or `0X`:
it stops before the letter. -/
theorem scanDecimal_zero_x (l : List Char) (x : Char) (r : List Char)
    (hx : x = 'x' ∨ x = 'X') (hl : (takeSign l).2 = '0' :: x :: r) :
    ∃ v, scanDecimal l = some (v, x :: r) := by
  unfold scanDecimal
  rw [hl, scanUnsignedDecimal_zero_x x r hx]
  exact ⟨_, rfl⟩

/-- An accepted text that starts, after an optional sign, with `0x` or `0X` goes on with a
hexadecimal digit. -/
theorem accepted_hex_digits (s : String) (h : validateNumeric s = .accepted)
    (x : Char) (rest : List Char) (hx : x = 'x' ∨ x = 'X')
    (hu : (takeSign (trimStart s.toList)).2 = '0' :: x :: rest) :
    (spanDigits 16 rest).1 ≠ [] := by
  have hxs : isStrWhiteSpaceChar x = false := by rcases hx with rfl | rfl <;> decide
  have h0 : isStrWhiteSpaceChar '0' = false := by decide
  -- the trimmed text keeps the sign, the zero and the letter
  have htrim : (takeSign (trim s.toList)).2 = '0' :: x :: trimEnd rest ∧
      (trim s.toList = '0' :: x :: trimEnd rest ∨ ∃ sg, (sg = '-' ∨ sg = '+') ∧
        trim s.toList = sg :: '0' :: x :: trimEnd rest) := by
    have hcs : trim s.toList = trimEnd (trimStart s.toList) := rfl
    rcases takeSign_cases (trimStart s.toList) with hl | hl | hl
    · rw [hu] at hl
      rw [hcs, hl, trimEnd_cons_of_not_space _ _ (by decide),
        trimEnd_cons_of_not_space _ _ h0, trimEnd_cons_of_not_space _ _ hxs]
      exact ⟨by simp [takeSign], Or.inr ⟨'-', Or.inl rfl, rfl⟩⟩
    · rw [hu] at hl
      rw [hcs, hl, trimEnd_cons_of_not_space _ _ (by decide),
        trimEnd_cons_of_not_space _ _ h0, trimEnd_cons_of_not_space _ _ hxs]
      exact ⟨by simp [takeSign], Or.inr ⟨'+', Or.inr rfl, rfl⟩⟩
    · rw [hu] at hl
      rw [hcs, hl, trimEnd_cons_of_not_space _ _ h0, trimEnd_cons_of_not_space _ _ hxs]
      exact ⟨by simp [takeSign], Or.inl rfl⟩
  obtain ⟨hsign, hshape⟩ := htrim
  have hne : trim s.toList ≠ [] := by
    rcases hshape with hs | ⟨sg, -, hs⟩ <;> rw [hs] <;> simp
  rcases stringToNumber_not_nan s (validateNumeric_accepted s h) hne with ⟨n, hn⟩ | ⟨-, v, hv⟩
  · obtain ⟨c, rest', hc, hdig⟩ := nonDecimalIntegerLiteral_some _ n hn
    rcases hshape with hs | ⟨sg, hsg, hs⟩
    · rw [hs] at hc
      simp only [List.cons.injEq, true_and] at hc
      obtain ⟨hcx, hrest⟩ := hc
      have hd := hdig (hcx ▸ hx)
      rw [← hrest] at hd
      obtain ⟨d, r', hr', hdd⟩ := spanDigits_fst_ne_nil_iff 16 _ hd
      obtain ⟨r'', hr'', -⟩ := trimEnd_eq_cons rest d r' hr'
      rw [hr'']
      exact spanDigits_fst_ne_nil 16 d r'' hdd
    · rw [hs] at hc
      simp only [List.cons.injEq] at hc
      rcases hsg with rfl | rfl
      · exact absurd hc.1 (by decide)
      · exact absurd hc.1 (by decide)
  · obtain ⟨v', hv'⟩ := scanDecimal_zero_x (trim s.toList) x (trimEnd rest) hx hsign
    rw [hv'] at hv
    simp at hv

/-- On an accepted text that starts, after leading white space
and an optional sign, with a decimal digit, `parseInt` is not NaN. -/
theorem accepted_parseInt (s : String) (h : validateNumeric s = .accepted)
    (hd : startsWithDigit (takeSign (trimStart s.toList)).2 = true) :
    (parseInt s).isNaN = false := by
  have hrun : ∀ run : List Nat × List Char, run.1 ≠ [] → ∀ M : Int,
      (if run.1 = [] then JsNumber.nan else roundDyadic M 0).isNaN = false := by
    intro run hr M
    rw [if_neg hr]
    exact roundDyadic_isNaN _ _
  unfold parseInt
  simp only
  apply hrun
  cases hu : (takeSign (trimStart s.toList)).2 with
  | nil => rw [hu] at hd; simp [startsWithDigit] at hd
  | cons c rest =>
    rw [hu] at hd
    have hc : (digitIn 10 c).isSome = true := by simpa [startsWithDigit] using hd
    split
    · rename_i c' rest' heq
      simp only [List.cons.injEq] at heq
      split_ifs with hx
      · exact accepted_hex_digits s h c' rest' hx (by rw [hu, heq.1, heq.2])
      · exact spanDigits_fst_ne_nil 10 c rest hc
    · exact spanDigits_fst_ne_nil 10 c rest hc


/-! ## Text to Number: claims -/

set_option maxRecDepth 100000 in
/-- C8, counterexample.  The validator accepts a single space, on which `parseInt` and
`parseFloat` are NaN; it accepts `Infinity` and `.5`, on which `parseInt` is NaN; and for
the decimals it accepts `300` and `-1`, which `parseInt` reads as 300 and -1. -/
theorem validateNumeric_accepts_unparsed :
    (validateNumeric " " = .accepted ∧ parseInt " " = .nan ∧ parseFloat " " = .nan) ∧
    (validateNumeric "Infinity" = .accepted ∧ parseInt "Infinity" = .nan) ∧
    (validateNumeric ".5" = .accepted ∧ parseInt ".5" = .nan) ∧
    (validateNumeric "300" = .accepted ∧ (parseInt "300").toInt? = some 300) ∧
    (validateNumeric "-1" = .accepted ∧ (parseInt "-1").toInt? = some (-1)) := by
  decide

/-- C8, amended.  For every text accepted by the validator of the numeric questions that is
not all white space, `parseFloat` returns a Number that is not NaN; and when the text
starts, after leading white space and an optional sign, with a decimal digit, `parseInt`
returns a Number that is not NaN. -/
theorem validateNumeric_accepted_parses (s : String) (h : validateNumeric s = .accepted)
    (hne : trim s.toList ≠ []) :
    (parseFloat s).isNaN = false ∧
    (startsWithDigit (takeSign (trimStart s.toList)).2 = true → (parseInt s).isNaN = false) := by
  constructor
  · rw [parseFloat_isNaN, accepted_startsDecimal s h hne]; rfl
  · exact accepted_parseInt s h

set_option maxRecDepth 100000 in
/-- Witness of C8 (amended): the text `9`. -/
theorem validateNumeric_accepted_parses_witness :
    (parseFloat "9").isNaN = false ∧
    (startsWithDigit (takeSign (trimStart "9".toList)).2 = true →
      (parseInt "9").isNaN = false) :=
  validateNumeric_accepted_parses "9" (by decide) (by decide)

end SolMemeCreator
